import Mathlib

/-!
Verification of the "Profiles" psychometric assessment platform.

This file gives a shallow embedding in Lean 4 of the scoring, adaptive-testing
and matching logic of the repository (packages/core, packages/api), and proves
or refutes the specification claims about it.  JavaScript numbers are modelled
as real numbers (`ℝ`) where the code uses transcendental functions
(`Math.exp`, `Math.sqrt`, `Math.log`) and as rationals (`ℚ`) or integers
(`ℤ`) where the arithmetic is exact.  `Math.round` is `⌊x + 1/2⌋`
(JavaScript rounds ties toward +∞).
-/

namespace Profiles

/-- JavaScript `Math.round`: round half toward positive infinity. -/
noncomputable def jsRound (x : ℝ) : ℤ := ⌊x + 1/2⌋

/-- `Math.round` on exact rational values. -/
def jsRoundQ (x : ℚ) : ℤ := ⌊x + 1/2⌋

/-! ## packages/core/src/sten.ts -/

/-- Constant `pLow = 0.02425` from `normalInverse`. -/
noncomputable def pLow : ℝ := 0.02425

/-- Central-region numerator polynomial of `normalInverse`
(the `a1..a6` Horner chain, evaluated at `r = q²`). -/
noncomputable def nvA (r : ℝ) : ℝ :=
  ((((-39.69683028665376 * r + 220.9460984245205) * r + -275.9285104469687) * r
      + 138.357751867269) * r + -30.66479806614716) * r + 2.506628277459239

/-- Central-region denominator polynomial of `normalInverse`
(the `b1..b5` Horner chain, evaluated at `r = q²`). -/
noncomputable def nvD (r : ℝ) : ℝ :=
  ((((-54.47609879822406 * r + 161.5858368580409) * r + -155.6989798598866) * r
      + 66.80131188771972) * r + -13.28068155288572) * r + 1

/-- Tail-region numerator polynomial of `normalInverse`
(the `c1..c6` Horner chain, evaluated at `q = √(−2 ln p)`). -/
noncomputable def nvC (q : ℝ) : ℝ :=
  ((((-0.007784894002430293 * q + -0.3223964580411365) * q + -2.400758277161838) * q
      + -2.549732539343734) * q + 4.374664141464968) * q + 2.938163982698783

/-- Tail-region denominator polynomial of `normalInverse`
(the `d1..d4` Horner chain, evaluated at `q = √(−2 ln p)`). -/
noncomputable def nvDT (q : ℝ) : ℝ :=
  (((0.007784695709041462 * q + 0.3224671290700398) * q + 2.445134137142996) * q
      + 3.754408661907416) * q + 1

/-- `normalInverse(p)` — Acklam rational approximation of the inverse normal
CDF, three-region split exactly as in `sten.ts`. -/
noncomputable def normalInverse (p : ℝ) : ℝ :=
  if p < pLow then
    nvC (Real.sqrt (-2 * Real.log p)) / nvDT (Real.sqrt (-2 * Real.log p))
  else if p ≤ 1 - pLow then
    nvA ((p - 0.5) * (p - 0.5)) * (p - 0.5) / nvD ((p - 0.5) * (p - 0.5))
  else
    -(nvC (Real.sqrt (-2 * Real.log (1 - p))) / nvDT (Real.sqrt (-2 * Real.log (1 - p))))

/-- `STEN_MEAN = 5.5`. -/
noncomputable def STEN_MEAN : ℝ := 5.5

/-- `STEN_SD = 2.0`. -/
noncomputable def STEN_SD : ℝ := 2

/-- `rawToSten(rawScore, minScore, maxScore)` from `sten.ts`.  The result of
the JavaScript function is always an integer, so the codomain is `ℤ`. -/
noncomputable def rawToSten (rawScore minScore maxScore : ℝ) : ℤ :=
  if rawScore ≤ minScore then 1
  else if maxScore ≤ rawScore then 10
  else
    max 1 (min 10 (jsRound (STEN_MEAN + normalInverse ((rawScore - minScore) / (maxScore - minScore)) * STEN_SD)))

/-- The interior branch of `rawToSten` as a function of the normalized
proportion `p`: clamp of the rounded STEN value. -/
noncomputable def stenOf (p : ℝ) : ℤ :=
  max 1 (min 10 (jsRound (STEN_MEAN + normalInverse p * STEN_SD)))

/-- `likertSumToSten(responses, minPerItem, maxPerItem)` from `sten.ts`. -/
noncomputable def likertSumToSten (responses : List ℚ) (minPerItem maxPerItem : ℚ) : ℤ :=
  rawToSten (responses.sum : ℚ) ((responses.length : ℚ) * minPerItem)
    ((responses.length : ℚ) * maxPerItem)

/-! ## packages/core/src/irt.ts -/

/-- An IRT item: discrimination `a`, difficulty `b`, pseudo-guessing `c`. -/
structure Item where
  id : String
  a : ℝ
  b : ℝ
  c : ℝ

/-- `probabilityCorrect(theta, item)`: P(θ) = c + (1−c)/(1+e^(−a(θ−b))). -/
noncomputable def probabilityCorrect (theta : ℝ) (item : Item) : ℝ :=
  item.c + (1 - item.c) * (1 / (1 + Real.exp (-item.a * (theta - item.b))))

/-- `itemInformation(theta, item)` as actually computed by the code:
`a²(1−c) / ((1 + e^{a(θ−b)})·(1 + e^{a(θ−b)}·c))`. -/
noncomputable def itemInformation (theta : ℝ) (item : Item) : ℝ :=
  item.a * item.a * (1 - item.c) /
    ((1 + Real.exp (item.a * (theta - item.b))) * (1 + Real.exp (item.a * (theta - item.b)) * item.c))

/-- The item-information formula asserted by the specification:
`a²(1−c)·e^{a(θ−b)} / ((1+e^{a(θ−b)})·(1+c·e^{a(θ−b)}))`. -/
noncomputable def specItemInformation (theta : ℝ) (item : Item) : ℝ :=
  item.a ^ 2 * (1 - item.c) * Real.exp (item.a * (theta - item.b)) /
    ((1 + Real.exp (item.a * (theta - item.b))) * (1 + item.c * Real.exp (item.a * (theta - item.b))))

/-- The `totalInfo` accumulator of `getSEM`. -/
noncomputable def totalInformation (theta : ℝ) (items : List Item) : ℝ :=
  (items.map (itemInformation theta)).sum

/-- Models the comparison `getSEM(theta, items) <= targetSEM` from
`shouldStopTest`.  `getSEM` returns `Infinity` when the total information is
zero and `NaN` when it is negative; in both cases the JavaScript `<=`
comparison yields false, which the `0 < totalInfo` conjunct captures. -/
noncomputable def semLE (theta : ℝ) (items : List Item) (targetSEM : ℝ) : Prop :=
  0 < totalInformation theta items ∧ 1 / Real.sqrt (totalInformation theta items) ≤ targetSEM

/-- `shouldStopTest(theta, administeredItems, minItems, maxItems, targetSEM)`
from `irt.ts`. -/
noncomputable def shouldStopTest (theta : ℝ) (administeredItems : List Item)
    (minItems maxItems : ℕ) (targetSEM : ℝ) : Prop :=
  if administeredItems.length < minItems then False
  else if maxItems ≤ administeredItems.length then True
  else semLE theta administeredItems targetSEM

/-- `shouldStopTest` with its declared default parameters
`minItems = 5, maxItems = 30, targetSEM = 0.3`. -/
noncomputable def shouldStopTestDefault (theta : ℝ) (administeredItems : List Item) : Prop :=
  shouldStopTest theta administeredItems 5 30 0.3

/-- One pass of the Newton–Raphson accumulation loop of `estimateAbility`:
returns `(firstDeriv, secondDeriv)` for the given response/item pairs.
The code iterates `i` over `responses.length` reading `items[i]`, which is
the positional pairing realised here by `List.zip`. -/
noncomputable def nrDerivs (theta : ℝ) (pairs : List (ℝ × Item)) : ℝ × ℝ :=
  pairs.foldl
    (fun acc p =>
      (acc.1 + (p.1 - probabilityCorrect theta p.2) * p.2.a * (1 - p.2.c)
          / (1 - probabilityCorrect theta p.2),
       acc.2 - itemInformation theta p.2))
    (0, 0)

open Classical in
/-- The iteration loop of `estimateAbility`, fuel-indexed by the remaining
iterations.  Mirrors the `for` loop with its two `break` conditions and the
per-iteration clamp of `theta` to `[−4, 4]`. -/
noncomputable def estimateAbilityGo (pairs : List (ℝ × Item)) (tolerance : ℝ) :
    ℕ → ℝ → ℝ
  | 0, theta => theta
  | n + 1, theta =>
    let d := nrDerivs theta pairs
    if |d.2| < 1e-10 then theta
    else
      let delta := d.1 / d.2
      let theta2 := max (-4) (min 4 (theta - delta))
      if |delta| < tolerance then theta2
      else estimateAbilityGo pairs tolerance n theta2

/-- `estimateAbility(responses, items, initialTheta = 0, maxIterations = 50,
tolerance = 0.001)` from `irt.ts`. -/
noncomputable def estimateAbility (responses : List ℝ) (items : List Item)
    (initialTheta : ℝ := 0) (maxIterations : ℕ := 50) (tolerance : ℝ := 0.001) : ℝ :=
  estimateAbilityGo (responses.zip items) tolerance maxIterations initialTheta

open Classical in
/-- `selectNextItem(theta, administeredItems, availableItems)` from `irt.ts`:
maximum-information selection over not-yet-administered items. -/
noncomputable def selectNextItem (theta : ℝ) (administeredItems : List String)
    (availableItems : List Item) : Option Item :=
  (availableItems.foldl
    (fun acc item =>
      if administeredItems.contains item.id then acc
      else if acc.1 < itemInformation theta item then (itemInformation theta item, some item)
      else acc)
    ((-1 : ℝ), (none : Option Item))).2

/-- `thetaToSten(theta)` from `irt.ts`. -/
noncomputable def thetaToSten (theta : ℝ) : ℤ :=
  max 1 (min 10 (jsRound (5.5 + theta * 2)))

/-! ## packages/core/src/distortion.ts -/

/-- Result record of `detectDistortion`.  The `label`/`description` strings
repeat the category and are omitted; `responseConsistency` is kept as a real
number (it involves `Math.sqrt`). -/
structure DistortionResult where
  stenScore : ℤ
  category : String
  responseConsistency : ℝ

/-- `detectDistortion(responses)` from `distortion.ts`: STEN from the Likert
sum, then the category thresholds `≥7 → invalid`, `≥4 → warning`,
else `valid`. -/
noncomputable def detectDistortion (responses : List ℚ) : DistortionResult :=
  let stenScore := likertSumToSten responses 1 5
  { stenScore := stenScore
    category :=
      if 7 ≤ stenScore then "invalid"
      else if 4 ≤ stenScore then "warning"
      else "valid"
    responseConsistency :=
      min 100 (max 0 ((Real.sqrt ((responses.map
        (fun r => ((r : ℝ) - (responses.sum : ℝ) / (responses.length : ℝ)) ^ 2)).sum
          / (responses.length : ℝ)) / 1.5) * 100)) }

/-- Result record of `detectResponsePatterns`. -/
structure PatternsResult where
  isStraightLine : Bool
  isAlternating : Bool
  isRandom : Bool
  recommendation : String
deriving DecidableEq

/-- The `alternatingCount` loop of `detectResponsePatterns`: counts indices
`i = 1, 3, 5, …` below `n` with `responses[i] == responses[i-1]`. -/
def alternatingCount (responses : List ℚ) : ℕ :=
  ((List.range responses.length).filter
    (fun i => decide (i % 2 = 1 ∧ responses[i]? = responses[i-1]?))).length

/-- The `runs` count of `detectResponsePatterns`: 1 plus the number of
adjacent unequal pairs. -/
def runsCount (responses : List ℚ) : ℕ :=
  1 + (((List.range responses.length).filter
    (fun i => decide (1 ≤ i ∧ responses[i]? ≠ responses[i-1]?))).length)

/-- `detectResponsePatterns(responses)` from `distortion.ts`. -/
def detectResponsePatterns (responses : List ℚ) : PatternsResult :=
  let n := responses.length
  if n < 5 then
    { isStraightLine := false, isAlternating := false, isRandom := false
      recommendation := "insufficient_data" }
  else
    let isStraightLine := responses.all (fun r => decide (responses[0]? = some r))
    let isAlternating : Bool :=
      decide ((4 : ℚ) / 5 < (alternatingCount responses : ℚ) / (((n + 1) / 2 : ℕ) : ℚ))
    let expectedRuns : ℚ := (2 * n - 1) / 3
    let isRandom : Bool :=
      decide (|(runsCount responses : ℚ) - expectedRuns| < 3 / 10 * expectedRuns)
    { isStraightLine := isStraightLine
      isAlternating := isAlternating
      isRandom := isRandom
      recommendation :=
        if isRandom then "caution"
        else if isAlternating then "review"
        else if isStraightLine then "review"
        else "acceptable" }

/-- Result record of `checkResponseValidity`. -/
structure ValidityResult where
  valid : Bool
  distortion : DistortionResult
  patterns : PatternsResult
  recommendation : String

/-- `checkResponseValidity(distortionResponses, allBehavioralResponses)` from
`distortion.ts`. -/
noncomputable def checkResponseValidity (distortionResponses allBehavioralResponses : List ℚ) :
    ValidityResult :=
  let distortion := detectDistortion distortionResponses
  let patterns := detectResponsePatterns allBehavioralResponses
  let recommendation :=
    if distortion.category = "invalid" ∨ patterns.recommendation = "caution" then "discard"
    else if distortion.category = "warning" ∨ patterns.recommendation = "review" then "interview"
    else "use"
  { valid := decide (recommendation = "use")
    distortion := distortion
    patterns := patterns
    recommendation := recommendation }

/-! ## packages/core/src/interests.ts -/

/-- Per-scale interest score record (`rawScore`, `rank`, `sten`, `percentile`).
Only `sten` matters for `getTopInterests`/`calculateInterestMatch`. -/
structure InterestScore where
  rawScore : ℤ
  rank : ℤ
  sten : ℤ
  percentile : ℚ
deriving DecidableEq

/-- Stable insertion into a sorted list: `x` goes after every `y` with
`le y x`.  Used to model JavaScript's stable `Array.prototype.sort`. -/
def insertStable {α : Type} (le : α → α → Bool) (x : α) : List α → List α
  | [] => [x]
  | y :: ys => if le y x then y :: insertStable le x ys else x :: y :: ys

/-- Stable sort (insertion sort) with boolean precedence `le`; models
JavaScript's stable `Array.prototype.sort` with comparator
`(a, b) => key(b) - key(a)` when `le a b = (key b ≤ key a)`. -/
def sortStable {α : Type} (le : α → α → Bool) (l : List α) : List α :=
  l.foldl (fun acc x => insertStable le x acc) []

/-- `getTopInterests(scores)` from `interests.ts`: sort descending by STEN
(stable) and take the first three scale names. -/
def getTopInterests (scores : List (String × InterestScore)) : List String :=
  ((sortStable (fun a b => b.2.sten ≤ a.2.sten) scores).take 3).map (·.1)

/-- `calculateInterestMatch(candidateScores, modelTopInterests)` from
`interests.ts`: positional matches among the top three, then
`Math.round((matches / 3) * 100)`. -/
def calculateInterestMatch (candidateScores : List (String × InterestScore))
    (modelTopInterests : List String) : ℤ :=
  let candidateTop := getTopInterests candidateScores
  let numMatches := ((List.range (min 3 modelTopInterests.length)).filter
    (fun i => decide (candidateTop[i]? = modelTopInterests[i]?))).length
  jsRoundQ ((numMatches : ℚ) / 3 * 100)

/-! ## packages/api/src/routes/match.ts -/

/-- A `performanceModelScales` row: scale id, target STEN band, weight. -/
structure ModelScaleRange where
  scaleId : String
  targetStenMin : ℚ
  targetStenMax : ℚ
  weight : ℚ
deriving DecidableEq

/-- The six interest scale ids from `calculateInterestsMatch`. -/
def interestScaleIds : List String :=
  ["enterprising", "financial_admin", "people_service", "technical", "mechanical", "creative"]

/-- The `matches` count of `calculateInterestsMatch` (routes/match.ts): for
`i = 0, 1, 2` compare `candidateTop3[i] === modelTop3[i]`; two missing
(`undefined`) entries compare equal, matching JavaScript `===`. -/
def interestsMatchCount (candidateTop3 modelTop3 : List String) : ℕ :=
  ((List.range 3).filter (fun i => decide (candidateTop3[i]? = modelTop3[i]?))).length

/-- `calculateInterestsMatch(assessmentId, modelScales)` from
`routes/match.ts`, with the candidate's persisted interest STEN scores
supplied as an association list (first match wins, as in the DB lookup).
Returns the `fit` field: `Math.round(33.33 + matches * 22.22)`. -/
def calculateInterestsMatch (dbScores : List (String × ℤ))
    (modelScales : List ModelScaleRange) : ℤ :=
  let candidateScores := interestScaleIds.filterMap
    (fun id => (dbScores.lookup id).map (fun sten => (id, sten)))
  let sorted := sortStable (fun a b => b.2 ≤ a.2) candidateScores
  let candidateTop3 := (sorted.take 3).map (·.1)
  let modelInterestScales := modelScales.filter (fun ms => decide (ms.scaleId ∈ interestScaleIds))
  let modelSorted := sortStable
    (fun a b => (b.targetStenMax + b.targetStenMin) / 2 ≤ (a.targetStenMax + a.targetStenMin) / 2)
    modelInterestScales
  let modelTop3 := (modelSorted.take 3).map (·.scaleId)
  jsRoundQ (3333 / 100 + (interestsMatchCount candidateTop3 modelTop3 : ℚ) * (2222 / 100))

/-- The interests-fit formula asserted by the specification:
`round(33.33 + matches · 22.22)`. -/
def specInterestsFit (numMatches : ℕ) : ℤ :=
  jsRoundQ (3333 / 100 + (numMatches : ℚ) * (2222 / 100))

/-! ## packages/api/src/routes/reports.ts -/

/-- Result record of `calculateScalePenalty`. -/
structure ScalePenalty where
  penalty : ℚ
  distance : ℚ
  withinRange : Bool
deriving DecidableEq

/-- `calculateScalePenalty(candidateSten, targetMin, targetMax)` from
`routes/reports.ts` (the identical function also appears in
`routes/match.ts`). -/
def calculateScalePenalty (candidateSten targetMin targetMax : ℚ) : ScalePenalty :=
  let below := max 0 (targetMin - candidateSten)
  let above := max 0 (candidateSten - targetMax)
  let distance := below + above
  { penalty := max 0 (1 - (15 / 100 * distance + 5 / 100 * distance * distance))
    distance := distance
    withinRange := decide (distance = 0) }

/-! ## packages/api/src/routes/assessments.ts

The assessment-flow route handlers, with the database tables supplied as
lists and the per-assessment rows gathered in an `AState` record.  The
`Assessment not found` checks are modelled away by passing the assessment row
directly. -/

/-- An `items` table row (the fields the route handlers read). -/
structure ItemRow where
  id : String
  scaleId : Option String
  domain : String
  isDistortion : Bool
  isActive : Bool
  correctAnswer : Option String
  a : ℝ
  b : ℝ
  c : ℝ

/-- A `scales` table row (the fields the route handlers read). -/
structure ScaleRow where
  id : String
  domain : String
  type : String
  isComposite : Bool

/-- A stored response value (JSON round-trips numbers and strings). -/
inductive RespVal where
  | num (q : ℚ)
  | str (s : String)
deriving DecidableEq

/-- A `responses` table row (the fields the route handlers read). -/
structure ResponseRow where
  id : String
  itemId : String
  response : RespVal
  isCorrect : Option Bool
  theta : Option ℝ

/-- An `assessments` table row (the fields the route handlers read).
`expiresAt` is a timestamp. -/
structure AssessmentRow where
  id : String
  type : String
  status : String
  currentSection : String
  currentItemIndex : ℕ
  expiresAt : ℤ

/-- A `scaleScores` table row as inserted by the complete handler. -/
structure ScaleScoreRow where
  scaleId : String
  rawScore : ℚ
  stenScore : ℤ
  percentile : ℤ
  itemCount : ℕ

/-- The per-assessment persistent state: the assessment row, its responses
(append-only) and its scale scores. -/
structure AState where
  assessment : AssessmentRow
  responses : List ResponseRow
  scaleScores : List ScaleScoreRow

/-- Replace the `expiresAt` timestamp of an assessment state. -/
def setExpiry (t : ℤ) (st : AState) : AState :=
  { st with assessment := { st.assessment with expiresAt := t } }

/-- View an `items` row as an IRT item. -/
def ItemRow.toItem (i : ItemRow) : Item :=
  { id := i.id, a := i.a, b := i.b, c := i.c }

/-- `r.isCorrect ? 1 : 0` — JavaScript truthiness of the nullable flag. -/
def correct01 (r : ResponseRow) : ℝ :=
  if r.isCorrect = some true then 1 else 0

/-- `JSON.parse(r.response)` read as a Likert number.  Stored responses on
Likert items are numbers; the `catch` fallback value 3 is used for anything
else. -/
def respLikert : RespVal → ℚ
  | .num q => q
  | .str _ => 3

/-- Outcome of `GET /api/assessments/:id/next`. -/
inductive NextOutcome where
  | notInProgress
  | servedItem (itemId : String)
  | sectionDone (nextSection : Option String)
  | noItems
deriving DecidableEq

open Classical in
/-- The outcome of the `GET /:id/next` handler: guard on
`status === 'in_progress'`, then the per-section branch (adaptive for
cognitive, sequential for behavioral and interests). -/
noncomputable def nextOutcomeOf (allItems : List ItemRow) (st : AState) : NextOutcome :=
  if st.assessment.status ≠ "in_progress" then .notInProgress
  else
    let answered : List String := st.responses.map (·.itemId)
    let itemIndex := st.assessment.currentItemIndex
    if st.assessment.currentSection = "cognitive" then
      let allCognitiveItems := allItems.filter
        (fun i => decide (i.domain = "cognitive" ∧ i.isActive))
      let cognitiveResponses := st.responses.filter
        (fun r => allCognitiveItems.any (fun i => i.id == r.itemId))
      let respItems := cognitiveResponses.filterMap
        (fun r => (allCognitiveItems.find? (fun i => i.id == r.itemId)).map ItemRow.toItem)
      let theta := if cognitiveResponses.length > 0 then
          estimateAbility (cognitiveResponses.map correct01) respItems
        else 0
      if shouldStopTest theta respItems 5 20 0.35 ∨ 20 ≤ cognitiveResponses.length then
        .sectionDone (if st.assessment.type = "full" then some "behavioral" else none)
      else
        let availableItems := (allCognitiveItems.filter
          (fun i => !answered.contains i.id)).map ItemRow.toItem
        match selectNextItem theta answered availableItems with
        | some item => .servedItem item.id
        | none => .noItems
    else if st.assessment.currentSection = "behavioral" then
      let behavioralItems := allItems.filter
        (fun i => decide (i.domain = "behavioral" ∧ i.isActive))
      let unanswered := behavioralItems.filter (fun i => !answered.contains i.id)
      match unanswered[itemIndex % unanswered.length]? with
      | some item => .servedItem item.id
      | none => .sectionDone (if st.assessment.type = "full" then some "interests" else none)
    else if st.assessment.currentSection = "interests" then
      let interestItems := allItems.filter
        (fun i => decide (i.domain = "interests" ∧ i.isActive))
      let unanswered := interestItems.filter (fun i => !answered.contains i.id)
      match unanswered[itemIndex % unanswered.length]? with
      | some item => .servedItem item.id
      | none => .sectionDone none
    else .noItems

/-- The state update performed by the `GET /:id/next` handler: on a section
boundary advance to the next section (index 0), or mark the assessment
completed when no section remains; otherwise the state is untouched. -/
def nextAdvance (st : AState) : NextOutcome → AState
  | .sectionDone (some ns) =>
      { st with assessment :=
          { st.assessment with currentSection := ns, currentItemIndex := 0 } }
  | .sectionDone none =>
      { st with assessment := { st.assessment with status := "completed" } }
  | _ => st

/-- The `GET /:id/next` handler. -/
noncomputable def nextOp (allItems : List ItemRow) (st : AState) : NextOutcome × AState :=
  (nextOutcomeOf allItems st, nextAdvance st (nextOutcomeOf allItems st))

/-- Outcome of `POST /api/assessments/:id/respond`. -/
inductive RespondOutcome where
  | notInProgress
  | itemNotFound
  | success
deriving DecidableEq

/-- `String(response)` for a stored response value. -/
def RespVal.toStr : RespVal → String
  | .num q => toString q
  | .str s => s

/-- The guard outcome of the `POST /:id/respond` handler: status check, then
item lookup. -/
def respondOutcomeOf (allItems : List ItemRow) (itemId : String) (st : AState) :
    RespondOutcome :=
  if st.assessment.status ≠ "in_progress" then .notInProgress
  else
    match allItems.find? (fun i => i.id == itemId) with
    | none => .itemNotFound
    | some _ => .success

/-- The derived `isCorrect` flag of the respond handler: for cognitive items
the trimmed, lower-cased response string compared with the item's correct
answer (`undefined` compares unequal); `null` otherwise. -/
def respondIsCorrect (allItems : List ItemRow) (itemId : String) (resp : RespVal) :
    Option Bool :=
  match allItems.find? (fun i => i.id == itemId) with
  | some item =>
    if item.domain = "cognitive" then
      some (decide (some resp.toStr.trim.toLower = item.correctAnswer.map (·.toLower)))
    else none
  | none => none

open Classical in
/-- The θ snapshot of the respond handler: for cognitive items, re-estimate
ability from the previous cognitive responses plus the new one. -/
noncomputable def respondTheta (allItems : List ItemRow) (itemId : String) (resp : RespVal)
    (st : AState) : Option ℝ :=
  match allItems.find? (fun i => i.id == itemId) with
  | some item =>
    if item.domain = "cognitive" then
      let cognitiveItems := allItems.filter
        (fun i => decide (i.domain = "cognitive" ∧ i.isActive))
      let cognitiveResponses := st.responses.filter
        (fun r => cognitiveItems.any (fun i => i.id == r.itemId))
      let respItems := (cognitiveResponses.map (·.itemId) ++ [itemId]).filterMap
        (fun iid => (cognitiveItems.find? (fun i => i.id == iid)).map ItemRow.toItem)
      let responsePattern := cognitiveResponses.map correct01 ++
        [if respondIsCorrect allItems itemId resp = some true then (1 : ℝ) else 0]
      some (estimateAbility responsePattern respItems)
    else none
  | none => none

/-- The `POST /:id/respond` handler: guard on `status === 'in_progress'`,
look up the item, derive `isCorrect` and a θ snapshot for cognitive items,
append the response row and bump `currentItemIndex`. -/
noncomputable def respondOp (allItems : List ItemRow) (itemId : String) (resp : RespVal)
    (st : AState) : RespondOutcome × AState :=
  (respondOutcomeOf allItems itemId st,
   if respondOutcomeOf allItems itemId st = .success then
     { st with
        responses := st.responses ++
          [{ id := "resp", itemId := itemId, response := resp,
             isCorrect := respondIsCorrect allItems itemId resp,
             theta := respondTheta allItems itemId resp st }]
        assessment :=
          { st.assessment with currentItemIndex := st.assessment.currentItemIndex + 1 } }
   else st)

/-! ### The complete handler -/

/-- A computed per-scale score entry of the complete handler. -/
structure ScoreData where
  raw : ℚ
  sten : ℤ
  percentile : ℤ

/-- JavaScript object insertion: `scores[scaleId] = data` replaces an
existing key in place or appends a new one. -/
def upsertScore (key : String) (v : ScoreData) :
    List (String × ScoreData) → List (String × ScoreData)
  | [] => [(key, v)]
  | (k, w) :: rest =>
      if k = key then (k, v) :: rest else (k, w) :: upsertScore key v rest

/-- The percentile formula of the complete handler:
`Math.round((1 / (1 + Math.exp(-(sten - 5.5) / 1.2))) * 100)`. -/
noncomputable def completionPercentile (sten : ℤ) : ℤ :=
  jsRound ((1 / (1 + Real.exp (-(((sten : ℝ) - 5.5) / 1.2)))) * 100)

/-- Cognitive phase of the complete handler: one score per non-composite
cognitive scale that has responses, via θ estimation. -/
noncomputable def completeCognitive (allScales : List ScaleRow) (allItems : List ItemRow)
    (responses : List ResponseRow) (scores : List (String × ScoreData)) :
    List (String × ScoreData) :=
  let cognitiveResponses := responses.filter
    (fun r => (allItems.find? (fun i => i.id == r.itemId)).any (fun i => i.domain == "cognitive"))
  (allScales.filter (fun s => decide (s.domain = "cognitive"))).foldl
    (fun acc scale =>
      if scale.isComposite then acc
      else
        let scaleItems := allItems.filter
          (fun i => decide (i.scaleId = some scale.id ∧ i.domain = "cognitive"))
        let scaleResponses := cognitiveResponses.filter
          (fun r => scaleItems.any (fun i => i.id == r.itemId))
        if 0 < scaleResponses.length then
          let theta := estimateAbility (scaleResponses.map correct01)
            (scaleItems.map ItemRow.toItem)
          let stenScore := thetaToSten theta
          upsertScore scale.id
            { raw := ((scaleResponses.filter (fun r => r.isCorrect = some true)).length : ℚ)
              sten := stenScore
              percentile := completionPercentile stenScore } acc
        else acc)
    scores

/-- Learning-index phase of the complete handler: always inserts the
`learning_index` composite (sum of the four cognitive raw scores, bounds
`[0, 80]`). -/
noncomputable def completeLearningIndex (scores : List (String × ScoreData)) :
    List (String × ScoreData) :=
  let liRaw := (["verbal_skill", "verbal_reasoning", "numerical_ability", "numeric_reasoning"].map
    (fun id => ((scores.lookup id).map (·.raw)).getD 0)).sum
  let liSten := likertSumToSten [liRaw] 0 80
  upsertScore "learning_index"
    { raw := liRaw, sten := liSten, percentile := completionPercentile liSten } scores

/-- Behavioral phase of the complete handler: Likert sums per trait scale. -/
noncomputable def completeBehavioral (allScales : List ScaleRow) (allItems : List ItemRow)
    (responses : List ResponseRow) (scores : List (String × ScoreData)) :
    List (String × ScoreData) :=
  let behavioralResponses := responses.filter
    (fun r => (allItems.find? (fun i => i.id == r.itemId)).any
      (fun i => i.domain == "behavioral" && !i.isDistortion))
  ((allScales.filter (fun s => decide (s.domain = "behavioral"))).filter
      (fun s => decide (s.type = "trait"))).foldl
    (fun acc scale =>
      let scaleItems := allItems.filter
        (fun i => decide (i.scaleId = some scale.id ∧ ¬i.isDistortion))
      let scaleResponses := behavioralResponses.filter
        (fun r => scaleItems.any (fun i => i.id == r.itemId))
      if 0 < scaleResponses.length then
        let likertResponses := scaleResponses.map (fun r => respLikert r.response)
        let stenScore := likertSumToSten likertResponses 1 5
        upsertScore scale.id
          { raw := likertResponses.sum
            sten := stenScore
            percentile := completionPercentile stenScore } acc
      else acc)
    scores

/-- Distortion phase of the complete handler. -/
noncomputable def completeDistortion (allItems : List ItemRow)
    (responses : List ResponseRow) (scores : List (String × ScoreData)) :
    List (String × ScoreData) :=
  let distortionItems := allItems.filter (·.isDistortion)
  let distortionResponses := responses.filter
    (fun r => distortionItems.any (fun i => i.id == r.itemId))
  if 0 < distortionResponses.length then
    let likerts := distortionResponses.map (fun r => respLikert r.response)
    let distortionSten := likertSumToSten likerts 1 5
    upsertScore "distortion"
      { raw := likerts.sum
        sten := distortionSten
        percentile := completionPercentile distortionSten } scores
  else scores

/-- `choice === 'A' || choice === 0` from the interests phase, after
`responseData.choice || responseData` (the stored value itself when it is
a plain `'A'`/`'B'` string or `0`/`1` number). -/
def interestChoiceWins : RespVal → Bool
  | .str s => s == "A"
  | .num q => q == 0

/-- Increment the win count of a scale id, appending a fresh entry when the
key is absent (`(interestWins[item.scaleId] || 0) + 1`). -/
def bumpWin (key : String) : List (String × ℕ) → List (String × ℕ)
  | [] => [(key, 1)]
  | (k, n) :: rest => if k = key then (k, n + 1) :: rest else (k, n) :: bumpWin key rest

/-- Interests phase of the complete handler: count wins per interest scale,
rank by wins (stable descending sort), convert rank to percentile and STEN. -/
noncomputable def completeInterests (allScales : List ScaleRow) (allItems : List ItemRow)
    (responses : List ResponseRow) (scores : List (String × ScoreData)) :
    List (String × ScoreData) :=
  let interestItems := allItems.filter (fun i => i.domain == "interests")
  let interestResponses := responses.filter
    (fun r => interestItems.any (fun i => i.id == r.itemId))
  let initWins : List (String × ℕ) :=
    (allScales.filter (fun s => decide (s.domain = "interests"))).map (fun s => (s.id, 0))
  let interestWins := interestResponses.foldl
    (fun wins r =>
      if interestChoiceWins r.response then
        match (interestItems.find? (fun i => i.id == r.itemId)).bind (·.scaleId) with
        | some sid => bumpWin sid wins
        | none => wins
      else wins)
    initWins
  let sortedInterests := sortStable (fun a b => b.2 ≤ a.2) interestWins
  let n := sortedInterests.length
  (List.range n).foldl
    (fun acc i =>
      match sortedInterests[i]? with
      | some (scaleId, wins) =>
        let rank : ℕ := i + 1
        let percentile : ℚ := (((n : ℚ) - (rank : ℚ) + 1/2) / (n : ℚ)) * 100
        let stenScore : ℤ := max 1 (min 10 (jsRoundQ (11/2 + (percentile / 100 - 1/2) * 4)))
        upsertScore scaleId
          { raw := (wins : ℚ), sten := stenScore, percentile := jsRoundQ percentile } acc
      | none => acc)
    scores

/-- The full `scores` record computed by `POST /:id/complete`. -/
noncomputable def computeCompletionScores (allScales : List ScaleRow) (allItems : List ItemRow)
    (responses : List ResponseRow) : List (String × ScoreData) :=
  completeInterests allScales allItems responses
    (completeDistortion allItems responses
      (completeBehavioral allScales allItems responses
        (completeLearningIndex
          (completeCognitive allScales allItems responses []))))

/-- The `POST /:id/complete` handler: computes all scale scores, inserts one
`scaleScores` row per computed entry and marks the assessment completed.
There is no guard on the current status. -/
noncomputable def completeOp (allScales : List ScaleRow) (allItems : List ItemRow)
    (st : AState) : AState :=
  let scores := computeCompletionScores allScales allItems st.responses
  { st with
      scaleScores := st.scaleScores ++ scores.map
        (fun p => { scaleId := p.1, rawScore := p.2.raw, stenScore := p.2.sten,
                    percentile := p.2.percentile, itemCount := st.responses.length })
      assessment :=
        { st.assessment with status := "completed", currentSection := "complete" } }

/-! ## Theorems -/

/-- Evaluation of the penalty field of `calculateScalePenalty`. -/
theorem penalty_eval (s L U : ℚ) :
    (calculateScalePenalty s L U).penalty
      = max 0 (1 - (15 / 100 * (max 0 (L - s) + max 0 (s - U))
          + 5 / 100 * (max 0 (L - s) + max 0 (s - U)) * (max 0 (L - s) + max 0 (s - U)))) :=
  rfl

/-- C6: for an integer candidate STEN `s` and an integer band `[L, U]` with
`L ≤ U`, the per-scale distance penalty of `calculateScalePenalty` equals
`max 0 (1 − (0.15·d + 0.05·d²))` where `d = max 0 (L−s) + max 0 (s−U)`; in
particular the penalty is 1 inside the band, 0.80 at `s = L−1` or
`s = U+1`, 0.10 at `s = L−3`, and 0 for `s ≤ L−5` or `s ≥ U+5`. -/
theorem calculateScalePenalty_distance_decay (s L U : ℤ) (hLU : L ≤ U) :
    (calculateScalePenalty (s : ℚ) (L : ℚ) (U : ℚ)).penalty
      = max 0 (1 - (15 / 100 * ((max 0 (L - s) + max 0 (s - U) : ℤ) : ℚ)
          + 5 / 100 * ((max 0 (L - s) + max 0 (s - U) : ℤ) : ℚ)
              * ((max 0 (L - s) + max 0 (s - U) : ℤ) : ℚ)))
    ∧ (L ≤ s ∧ s ≤ U → (calculateScalePenalty (s : ℚ) (L : ℚ) (U : ℚ)).penalty = 1)
    ∧ (s = L - 1 ∨ s = U + 1 →
        (calculateScalePenalty (s : ℚ) (L : ℚ) (U : ℚ)).penalty = 4 / 5)
    ∧ (s = L - 3 → (calculateScalePenalty (s : ℚ) (L : ℚ) (U : ℚ)).penalty = 1 / 10)
    ∧ (s ≤ L - 5 ∨ U + 5 ≤ s →
        (calculateScalePenalty (s : ℚ) (L : ℚ) (U : ℚ)).penalty = 0) := by
  have hcast : ((max 0 (L - s) + max 0 (s - U) : ℤ) : ℚ)
      = max 0 ((L : ℚ) - s) + max 0 ((s : ℚ) - U) := by
    push_cast
    ring_nf
  refine ⟨?_, ?_, ?_, ?_, ?_⟩
  · rw [penalty_eval, hcast]
  · rintro ⟨h1, h2⟩
    have hb : ((L : ℚ) - s) ≤ 0 := by
      have : (L : ℚ) ≤ s := by exact_mod_cast h1
      linarith
    have ha : ((s : ℚ) - U) ≤ 0 := by
      have : (s : ℚ) ≤ U := by exact_mod_cast h2
      linarith
    rw [penalty_eval, max_eq_left hb, max_eq_left ha]
    norm_num
  · rintro (rfl | rfl)
    · have hb : max 0 ((L : ℚ) - ((L - 1 : ℤ) : ℚ)) = 1 := by
        push_cast
        rw [max_eq_right] <;> norm_num
      have ha : max 0 ((((L - 1 : ℤ) : ℚ)) - U) = 0 := by
        have : ((L : ℚ)) ≤ (U : ℚ) := by exact_mod_cast hLU
        push_cast
        rw [max_eq_left] <;> linarith
      rw [penalty_eval, hb, ha]
      norm_num
    · have hb : max 0 ((L : ℚ) - ((U + 1 : ℤ) : ℚ)) = 0 := by
        have : ((L : ℚ)) ≤ (U : ℚ) := by exact_mod_cast hLU
        push_cast
        rw [max_eq_left] <;> linarith
      have ha : max 0 ((((U + 1 : ℤ) : ℚ)) - U) = 1 := by
        push_cast
        rw [max_eq_right] <;> norm_num
      rw [penalty_eval, hb, ha]
      norm_num
  · rintro rfl
    have hb : max 0 ((L : ℚ) - ((L - 3 : ℤ) : ℚ)) = 3 := by
      push_cast
      rw [max_eq_right] <;> norm_num
    have ha : max 0 ((((L - 3 : ℤ) : ℚ)) - U) = 0 := by
      have : ((L : ℚ)) ≤ (U : ℚ) := by exact_mod_cast hLU
      push_cast
      rw [max_eq_left] <;> linarith
    rw [penalty_eval, hb, ha]
    norm_num
  · intro h
    rw [penalty_eval]
    have hd : 5 ≤ max 0 ((L : ℚ) - s) + max 0 ((s : ℚ) - U) := by
      rcases h with h | h
      · have h5 : (5 : ℚ) ≤ (L : ℚ) - s := by
          have : (s : ℚ) ≤ ((L : ℚ) - 5) := by exact_mod_cast h
          linarith
        have := le_max_right (0 : ℚ) ((L : ℚ) - s)
        have := le_max_left (0 : ℚ) ((s : ℚ) - U)
        nlinarith [le_max_left (0 : ℚ) ((s : ℚ) - U), le_max_right (0 : ℚ) ((L : ℚ) - s)]
      · have h5 : (5 : ℚ) ≤ (s : ℚ) - U := by
          have : ((U : ℚ) + 5) ≤ (s : ℚ) := by exact_mod_cast h
          linarith
        nlinarith [le_max_left (0 : ℚ) ((L : ℚ) - s), le_max_right (0 : ℚ) ((s : ℚ) - U)]
    rw [max_eq_left]
    nlinarith [hd]

/-- Witness for C6: band `[4, 7]`, candidate STEN 3 (one below the band)
gives penalty `0.80`. -/
theorem calculateScalePenalty_distance_decay_witness :
    (4 : ℤ) ≤ 7 ∧ ((3 : ℤ) = 4 - 1 ∨ (3 : ℤ) = 7 + 1) ∧
      (calculateScalePenalty ((3 : ℤ) : ℚ) ((4 : ℤ) : ℚ) ((7 : ℤ) : ℚ)).penalty = 4 / 5 :=
  ⟨by decide, Or.inl (by decide),
    (calculateScalePenalty_distance_decay 3 4 7 (by decide)).2.2.1 (Or.inl (by decide))⟩

/-- Shape of `detectResponsePatterns` on streams of length at least five. -/
theorem detectResponsePatterns_struct (br : List ℚ) (h5 : ¬br.length < 5) :
    detectResponsePatterns br =
      { isStraightLine := br.all (fun r => decide (br[0]? = some r))
        isAlternating := decide ((4 : ℚ) / 5
          < (alternatingCount br : ℚ) / (((br.length + 1) / 2 : ℕ) : ℚ))
        isRandom := decide (|(runsCount br : ℚ) - (2 * br.length - 1) / 3|
          < 3 / 10 * ((2 * br.length - 1) / 3))
        recommendation :=
          if decide (|(runsCount br : ℚ) - (2 * br.length - 1) / 3|
              < 3 / 10 * ((2 * br.length - 1) / 3)) then "caution"
          else if decide ((4 : ℚ) / 5
              < (alternatingCount br : ℚ) / (((br.length + 1) / 2 : ℕ) : ℚ)) then "review"
          else if br.all (fun r => decide (br[0]? = some r)) then "review"
          else "acceptable" } := by
  unfold detectResponsePatterns
  rw [if_neg h5]

/-- The pattern recommendation is `"caution"` exactly when the random check
fires. -/
theorem patterns_caution_iff (br : List ℚ) :
    (detectResponsePatterns br).recommendation = "caution"
      ↔ (detectResponsePatterns br).isRandom = true := by
  by_cases h5 : br.length < 5
  · unfold detectResponsePatterns
    simp [h5]
  · rw [detectResponsePatterns_struct br h5]
    cases hz : decide (|(runsCount br : ℚ) - (2 * br.length - 1) / 3|
        < 3 / 10 * ((2 * br.length - 1) / 3)) <;>
      cases ha : decide ((4 : ℚ) / 5
          < (alternatingCount br : ℚ) / (((br.length + 1) / 2 : ℕ) : ℚ)) <;>
        cases hs : br.all (fun r => decide (br[0]? = some r)) <;> simp

/-- The pattern recommendation is `"review"` exactly when straight-lining or
alternating fires and the random check does not. -/
theorem patterns_review_iff (br : List ℚ) :
    (detectResponsePatterns br).recommendation = "review"
      ↔ ((detectResponsePatterns br).isRandom = false
          ∧ ((detectResponsePatterns br).isStraightLine = true
              ∨ (detectResponsePatterns br).isAlternating = true)) := by
  by_cases h5 : br.length < 5
  · unfold detectResponsePatterns
    simp [h5]
  · rw [detectResponsePatterns_struct br h5]
    cases hz : decide (|(runsCount br : ℚ) - (2 * br.length - 1) / 3|
        < 3 / 10 * ((2 * br.length - 1) / 3)) <;>
      cases ha : decide ((4 : ℚ) / 5
          < (alternatingCount br : ℚ) / (((br.length + 1) / 2 : ℕ) : ℚ)) <;>
        cases hs : br.all (fun r => decide (br[0]? = some r)) <;> simp

/-- C8: the distortion category is `invalid` for STEN ≥ 7, `warning` for
STEN 4–6 and `valid` for STEN ≤ 3, and the combined recommendation of
`checkResponseValidity` is `discard` when the category is invalid or the
random pattern fires, `interview` when the category is warning or the
straight-line or alternating pattern fires, and `use` otherwise. -/
theorem checkResponseValidity_recommendation (dr br : List ℚ) :
    (detectDistortion dr).category
      = (if 7 ≤ (detectDistortion dr).stenScore then "invalid"
         else if 4 ≤ (detectDistortion dr).stenScore then "warning" else "valid")
    ∧ (checkResponseValidity dr br).recommendation
      = (if (detectDistortion dr).category = "invalid"
            ∨ (detectResponsePatterns br).isRandom = true then "discard"
         else if (detectDistortion dr).category = "warning"
            ∨ (detectResponsePatterns br).isStraightLine = true
            ∨ (detectResponsePatterns br).isAlternating = true then "interview"
         else "use") := by
  constructor
  · rfl
  · unfold checkResponseValidity
    simp only
    by_cases hinv : (detectDistortion dr).category = "invalid"
    · by_cases hr : (detectResponsePatterns br).recommendation = "caution" <;>
        simp [hinv, hr]
    · by_cases hr : (detectResponsePatterns br).isRandom = true
      · have hc : (detectResponsePatterns br).recommendation = "caution" :=
          (patterns_caution_iff br).mpr hr
        simp [hinv, hr, hc]
      · have hc : ¬(detectResponsePatterns br).recommendation = "caution" := by
          intro h
          exact hr ((patterns_caution_iff br).mp h)
        by_cases hw : (detectDistortion dr).category = "warning"
        · simp [hinv, hr, hc, hw]
        · by_cases hrev : (detectResponsePatterns br).recommendation = "review"
          · have := (patterns_review_iff br).mp hrev
            simp [hinv, hr, hc, hw, hrev, this.2]
          · have hsa : ¬((detectResponsePatterns br).isStraightLine = true
                ∨ (detectResponsePatterns br).isAlternating = true) := by
              intro h
              refine hrev ((patterns_review_iff br).mpr ⟨?_, h⟩)
              simp only [Bool.not_eq_true] at hr
              exact hr
            simp [hinv, hr, hc, hw, hrev, hsa]

/-- C10: with fewer than five behavioral responses, `detectResponsePatterns`
reports no pattern and recommendation `insufficient_data`, so the combined
recommendation of `checkResponseValidity` is determined by the distortion
category alone. -/
theorem detectResponsePatterns_short (br : List ℚ) (h : br.length < 5) :
    detectResponsePatterns br =
      { isStraightLine := false, isAlternating := false, isRandom := false,
        recommendation := "insufficient_data" }
    ∧ ∀ dr : List ℚ, (checkResponseValidity dr br).recommendation
        = (if (detectDistortion dr).category = "invalid" then "discard"
           else if (detectDistortion dr).category = "warning" then "interview"
           else "use") := by
  have hp : detectResponsePatterns br =
      { isStraightLine := false, isAlternating := false, isRandom := false,
        recommendation := "insufficient_data" } := by
    unfold detectResponsePatterns
    rw [if_pos h]
  refine ⟨hp, fun dr => ?_⟩
  unfold checkResponseValidity
  simp only [hp]
  by_cases hinv : (detectDistortion dr).category = "invalid" <;>
    by_cases hw : (detectDistortion dr).category = "warning" <;>
      simp [hinv, hw]

/-- Witness for C10: the empty behavioral stream. -/
theorem detectResponsePatterns_short_witness :
    ([] : List ℚ).length < 5 ∧
    (detectResponsePatterns ([] : List ℚ) =
      { isStraightLine := false, isAlternating := false, isRandom := false,
        recommendation := "insufficient_data" }
    ∧ ∀ dr : List ℚ, (checkResponseValidity dr ([] : List ℚ)).recommendation
        = (if (detectDistortion dr).category = "invalid" then "discard"
           else if (detectDistortion dr).category = "warning" then "interview"
           else "use")) :=
  ⟨by decide, detectResponsePatterns_short [] (by decide)⟩

/-- C1 counterexample: a candidate whose top-three interests
(`enterprising, technical, creative` by descending STEN) match the model's
top three (`enterprising, technical, mechanical`) at exactly two positions
gets interests fit 67 from the core's `calculateInterestMatch` — not
`round(33.33 + 2·22.22) = 78`, and not a member of `{33, 56, 78, 100}`. -/
theorem calculateInterestMatch_violates_formula :
    calculateInterestMatch
      [("enterprising", ⟨5, 1, 10, 92⟩), ("technical", ⟨4, 2, 8, 75⟩),
        ("creative", ⟨3, 3, 6, 58⟩)]
      ["enterprising", "technical", "mechanical"] = 67
    ∧ specInterestsFit 2 = 78
    ∧ (67 : ℤ) ∉ ([33, 56, 78, 100] : List ℤ) := by
  have htop : getTopInterests
      [("enterprising", ⟨5, 1, 10, 92⟩), ("technical", ⟨4, 2, 8, 75⟩),
        ("creative", ⟨3, 3, 6, 58⟩)]
      = ["enterprising", "technical", "creative"] := by
    norm_num [getTopInterests, sortStable, insertStable, List.foldl]
  refine ⟨?_, ?_, by norm_num⟩
  · unfold calculateInterestMatch
    dsimp only
    rw [htop]
    have hcount : ((List.range (min 3 (["enterprising", "technical", "mechanical"] :
        List String).length)).filter
        (fun i => decide ((["enterprising", "technical", "creative"] : List String)[i]?
          = (["enterprising", "technical", "mechanical"] : List String)[i]?))).length = 2 := by
      decide
    rw [hcount]
    norm_num [jsRoundQ]
  · norm_num [specInterestsFit, jsRoundQ]

/-- The possible values of the core interests fit `round(m/3 · 100)`. -/
theorem coreFit_values (m : ℕ) (hm : m ≤ 3) :
    jsRoundQ ((m : ℚ) / 3 * 100) ∈ ([0, 33, 67, 100] : List ℤ) := by
  interval_cases m <;> norm_num [jsRoundQ, List.mem_cons]

/-- The possible values of the route interests fit
`round(33.33 + m·22.22)`. -/
theorem routeFit_values (m : ℕ) (hm : m ≤ 3) :
    jsRoundQ (3333 / 100 + (m : ℚ) * (2222 / 100)) ∈ ([33, 56, 78, 100] : List ℤ) := by
  interval_cases m <;> norm_num [jsRoundQ, List.mem_cons]

/-- C1 amended: the core's `calculateInterestMatch` returns
`round(matches/3 · 100) ∈ {0, 33, 67, 100}`, while the match route's
`calculateInterestsMatch` implements `round(33.33 + matches·22.22)` and its
fit always lies in `{33, 56, 78, 100}`. -/
theorem interestsFit_values :
    (∀ (cs : List (String × InterestScore)) (mt : List String),
        calculateInterestMatch cs mt ∈ ([0, 33, 67, 100] : List ℤ))
    ∧ (∀ (dbScores : List (String × ℤ)) (modelScales : List ModelScaleRange),
        calculateInterestsMatch dbScores modelScales ∈ ([33, 56, 78, 100] : List ℤ)
        ∧ ∃ m : ℕ, m ≤ 3
            ∧ calculateInterestsMatch dbScores modelScales = specInterestsFit m) := by
  constructor
  · intro cs mt
    unfold calculateInterestMatch
    dsimp only
    refine coreFit_values _ ?_
    calc ((List.range (min 3 mt.length)).filter
          (fun i => decide ((getTopInterests cs)[i]? = mt[i]?))).length
        ≤ (List.range (min 3 mt.length)).length := List.length_filter_le _ _
      _ = min 3 mt.length := List.length_range _
      _ ≤ 3 := min_le_left _ _
  · intro dbScores modelScales
    have hm : ∀ a b : List String, interestsMatchCount a b ≤ 3 := by
      intro a b
      unfold interestsMatchCount
      calc (List.filter (fun i => decide (a[i]? = b[i]?)) (List.range 3)).length
          ≤ (List.range 3).length := List.length_filter_le _ _
        _ = 3 := List.length_range _
    unfold calculateInterestsMatch
    dsimp only
    exact ⟨routeFit_values _ (hm _ _), _, hm _ _, rfl⟩

/-- `upsertScore` never returns the empty list. -/
theorem upsertScore_ne_nil (k : String) (v : ScoreData) :
    ∀ l : List (String × ScoreData), upsertScore k v l ≠ []
  | [] => by simp [upsertScore]
  | (k', w) :: rest => by
      unfold upsertScore
      split <;> simp

/-- A fold whose step preserves a predicate preserves it from the seed. -/
theorem foldl_preserves {α β : Type} {P : β → Prop} {f : β → α → β}
    (h : ∀ b a, P b → P (f b a)) : ∀ (l : List α) (b : β), P b → P (l.foldl f b)
  | [], _, hb => hb
  | a :: l, b, hb => foldl_preserves h l (f b a) (h b a hb)

/-- The scores record computed by the complete handler is never empty: the
learning-index phase unconditionally inserts an entry and the later phases
only upsert. -/
theorem computeCompletionScores_ne_nil (allScales : List ScaleRow)
    (allItems : List ItemRow) (responses : List ResponseRow) :
    computeCompletionScores allScales allItems responses ≠ [] := by
  unfold computeCompletionScores
  have h1 : completeLearningIndex
      (completeCognitive allScales allItems responses []) ≠ [] := by
    unfold completeLearningIndex
    exact upsertScore_ne_nil _ _ _
  have h2 : completeBehavioral allScales allItems responses
      (completeLearningIndex (completeCognitive allScales allItems responses [])) ≠ [] := by
    unfold completeBehavioral
    dsimp only
    refine @foldl_preserves _ _ (fun l => l ≠ []) _ ?_ _ _ h1
    intro b a hb
    dsimp only
    split
    · exact upsertScore_ne_nil _ _ _
    · exact hb
  have h3 : completeDistortion allItems responses
      (completeBehavioral allScales allItems responses
        (completeLearningIndex (completeCognitive allScales allItems responses []))) ≠ [] := by
    unfold completeDistortion
    dsimp only
    split
    · exact upsertScore_ne_nil _ _ _
    · exact h2
  unfold completeInterests
  dsimp only
  refine @foldl_preserves _ _ (fun l => l ≠ []) _ ?_ _ _ h3
  intro b a hb
  dsimp only
  split
  · exact upsertScore_ne_nil _ _ _
  · exact hb

/-- C2 amended: the complete handler has no guard on the current status —
every call recomputes the scores, appends a full fresh set of `scaleScores`
rows (always at least the learning-index row) and re-marks the assessment
completed; consequently a second call strictly enlarges the stored score
set and `complete` is not idempotent. -/
theorem completeOp_not_idempotent (allScales : List ScaleRow) (allItems : List ItemRow)
    (st : AState) :
    st.scaleScores.length < (completeOp allScales allItems st).scaleScores.length
    ∧ (completeOp allScales allItems st).assessment.status = "completed"
    ∧ completeOp allScales allItems (completeOp allScales allItems st)
        ≠ completeOp allScales allItems st := by
  have hlen : ∀ s : AState,
      s.scaleScores.length < (completeOp allScales allItems s).scaleScores.length := by
    intro s
    have hne := computeCompletionScores_ne_nil allScales allItems s.responses
    have hpos : 0 < (computeCompletionScores allScales allItems s.responses).length :=
      List.length_pos.mpr hne
    simp only [completeOp, List.length_append, List.length_map]
    omega
  refine ⟨hlen st, rfl, fun h => ?_⟩
  have hcong := congrArg (fun s : AState => s.scaleScores.length) h
  dsimp only at hcong
  have h2 := hlen (completeOp allScales allItems st)
  omega

/-- C2 counterexample: on a fresh in-progress assessment with no responses,
the first complete call stores one `scaleScores` row (the learning index)
and a second complete call stores another, so the two calls do not return
identical score sets — `complete` is not idempotent. -/
theorem completeOp_twice_counterexample :
    (completeOp [] []
        ⟨⟨"a1", "full", "in_progress", "cognitive", 0, 0⟩, [], []⟩).scaleScores.length = 1
    ∧ (completeOp [] [] (completeOp [] []
        ⟨⟨"a1", "full", "in_progress", "cognitive", 0, 0⟩, [], []⟩)).scaleScores.length = 2
    ∧ (completeOp [] [] (completeOp [] []
        ⟨⟨"a1", "full", "in_progress", "cognitive", 0, 0⟩, [], []⟩)).scaleScores
      ≠ (completeOp [] []
        ⟨⟨"a1", "full", "in_progress", "cognitive", 0, 0⟩, [], []⟩).scaleScores := by
  have h1 : (completeOp [] []
      ⟨⟨"a1", "full", "in_progress", "cognitive", 0, 0⟩, [], []⟩).scaleScores.length = 1 := by
    simp [completeOp, computeCompletionScores, completeInterests, completeDistortion,
      completeBehavioral, completeLearningIndex, completeCognitive, upsertScore,
      sortStable, insertStable]
  have h2 : (completeOp [] [] (completeOp [] []
      ⟨⟨"a1", "full", "in_progress", "cognitive", 0, 0⟩, [], []⟩)).scaleScores.length = 2 := by
    simp [completeOp, computeCompletionScores, completeInterests, completeDistortion,
      completeBehavioral, completeLearningIndex, completeCognitive, upsertScore,
      sortStable, insertStable]
  refine ⟨h1, h2, fun h => ?_⟩
  have := congrArg List.length h
  rw [h1, h2] at this
  exact absurd this (by norm_num)

/-- `nextAdvance` never touches the recorded responses. -/
theorem nextAdvance_responses (st : AState) (o : NextOutcome) :
    (nextAdvance st o).responses = st.responses := by
  cases o with
  | sectionDone ns => cases ns <;> rfl
  | notInProgress => rfl
  | servedItem i => rfl
  | noItems => rfl

/-- C9 amended: the next and respond handlers never consult `expiresAt` —
their outcomes are identical for any two expiry timestamps, `next` leaves
the recorded responses untouched, and `respond` appends the same response
row regardless of expiry.  No `AssessmentExpired` error exists; only
`status !== 'in_progress'` is checked. -/
theorem nextRespond_ignore_expiry (allItems : List ItemRow) (st : AState) (t t' : ℤ)
    (iid : String) (r : RespVal) :
    (nextOp allItems (setExpiry t st)).1 = (nextOp allItems (setExpiry t' st)).1
    ∧ (nextOp allItems (setExpiry t st)).2.responses = st.responses
    ∧ (respondOp allItems iid r (setExpiry t st)).1
        = (respondOp allItems iid r (setExpiry t' st)).1
    ∧ (respondOp allItems iid r (setExpiry t st)).2.responses
        = (respondOp allItems iid r (setExpiry t' st)).2.responses := by
  obtain ⟨⟨aid, ty, s, sec, idx, e⟩, rs, ss⟩ := st
  have houtN : nextOutcomeOf allItems (setExpiry t ⟨⟨aid, ty, s, sec, idx, e⟩, rs, ss⟩)
      = nextOutcomeOf allItems (setExpiry t' ⟨⟨aid, ty, s, sec, idx, e⟩, rs, ss⟩) := rfl
  have houtR : respondOutcomeOf allItems iid
        (setExpiry t ⟨⟨aid, ty, s, sec, idx, e⟩, rs, ss⟩)
      = respondOutcomeOf allItems iid
        (setExpiry t' ⟨⟨aid, ty, s, sec, idx, e⟩, rs, ss⟩) := rfl
  refine ⟨houtN, nextAdvance_responses _ _, houtR, ?_⟩
  show (if respondOutcomeOf allItems iid
        (setExpiry t ⟨⟨aid, ty, s, sec, idx, e⟩, rs, ss⟩) = .success then _ else _ :
      AState).responses = (if respondOutcomeOf allItems iid
        (setExpiry t' ⟨⟨aid, ty, s, sec, idx, e⟩, rs, ss⟩) = .success then _ else _ :
      AState).responses
  by_cases h : respondOutcomeOf allItems iid
      (setExpiry t ⟨⟨aid, ty, s, sec, idx, e⟩, rs, ss⟩) = .success
  · rw [if_pos h, if_pos (houtR ▸ h)]
    rfl
  · rw [if_neg h, if_neg (houtR ▸ h)]
    rfl

/-- C9 counterexample: an in-progress behavioral-section assessment whose
`expiresAt` timestamp is 0 (in the past for every later wall-clock instant)
is still served an item by `next`, and `respond` still records the response
(`success`, one stored row) — no `AssessmentExpired` error is returned. -/
theorem expired_assessment_still_served :
    (nextOp [⟨"b1", some "energy_level", "behavioral", false, true, none, 1, 0, 0⟩]
        ⟨⟨"a1", "full", "in_progress", "behavioral", 0, 0⟩, [], []⟩).1
      = .servedItem "b1"
    ∧ (respondOp [⟨"b1", some "energy_level", "behavioral", false, true, none, 1, 0, 0⟩]
        "b1" (.num 4)
        ⟨⟨"a1", "full", "in_progress", "behavioral", 0, 0⟩, [], []⟩).1 = .success
    ∧ (respondOp [⟨"b1", some "energy_level", "behavioral", false, true, none, 1, 0, 0⟩]
        "b1" (.num 4)
        ⟨⟨"a1", "full", "in_progress", "behavioral", 0, 0⟩, [], []⟩).2.responses.length
      = 1 := by
  refine ⟨rfl, rfl, rfl⟩

/-- C3 amended: for any parameters with `minItems ≤ maxItems`,
`shouldStopTest` returns true iff `itemsAdministered ≥ maxItems`, or
`itemsAdministered ≥ minItems` and the standard error `1/√(ΣI(θ))` is
defined (`ΣI(θ) > 0`) and at most `targetSEM`.  The declared default
parameters of the function are `minItems = 5, maxItems = 30,
targetSEM = 0.3`; the values 5/20/0.35 named by the claim are the explicit
arguments of the cognitive CAT branch, not defaults. -/
theorem shouldStopTest_iff (theta : ℝ) (items : List Item) (minItems maxItems : ℕ)
    (targetSEM : ℝ) (h : minItems ≤ maxItems) :
    shouldStopTest theta items minItems maxItems targetSEM
      ↔ (maxItems ≤ items.length
          ∨ (minItems ≤ items.length ∧ 0 < totalInformation theta items
              ∧ 1 / Real.sqrt (totalInformation theta items) ≤ targetSEM)) := by
  unfold shouldStopTest semLE
  split_ifs with h1 h2
  · constructor
    · intro hf
      exact hf.elim
    · rintro (hc | ⟨hc, _⟩) <;> omega
  · constructor
    · intro _
      exact Or.inl h2
    · intro _
      trivial
  · constructor
    · intro hs
      exact Or.inr ⟨by omega, hs⟩
    · rintro (hc | ⟨_, hsem⟩)
      · omega
      · exact hsem

/-- Witness for C3: the iff applied to twenty standard items at θ = 0 with
the CAT branch's explicit parameters 5/20/0.35. -/
theorem shouldStopTest_iff_witness :
    (5 : ℕ) ≤ 20 ∧
    (shouldStopTest 0 (List.replicate 20 ⟨"i", 1, 0, 0⟩) 5 20 (35/100)
      ↔ (20 ≤ (List.replicate 20 (⟨"i", 1, 0, 0⟩ : Item)).length
          ∨ (5 ≤ (List.replicate 20 (⟨"i", 1, 0, 0⟩ : Item)).length
              ∧ 0 < totalInformation 0 (List.replicate 20 ⟨"i", 1, 0, 0⟩)
              ∧ 1 / Real.sqrt (totalInformation 0 (List.replicate 20 ⟨"i", 1, 0, 0⟩))
                  ≤ 35/100))) :=
  ⟨by norm_num, shouldStopTest_iff 0 (List.replicate 20 ⟨"i", 1, 0, 0⟩) 5 20 (35/100)
    (by norm_num)⟩

/-- The information of the standard item (a=1, b=0, c=0) at θ = 0 is 1/2. -/
theorem itemInformation_std : itemInformation 0 ⟨"i", 1, 0, 0⟩ = 1/2 := by
  unfold itemInformation
  norm_num [Real.exp_zero]

/-- Twenty standard items at θ = 0 carry total information 10. -/
theorem totalInformation_twenty :
    totalInformation 0 (List.replicate 20 ⟨"i", 1, 0, 0⟩) = 10 := by
  unfold totalInformation
  rw [List.map_replicate, itemInformation_std, List.sum_replicate]
  norm_num

/-- C3 counterexample: with the function's declared defaults
(minItems=5, maxItems=30, targetSEM=0.3), twenty standard items at θ=0 give
ΣI = 10 and SEM = 1/√10 ≈ 0.316 > 0.3, so the test does NOT stop — yet
under the claimed defaults (maxItems=20, targetSEM=0.35) twenty items must
stop, as the explicit CAT-branch call indeed does. -/
theorem shouldStopTestDefault_twenty_items :
    ¬ shouldStopTestDefault 0 (List.replicate 20 ⟨"i", 1, 0, 0⟩)
    ∧ 20 ≤ (List.replicate 20 (⟨"i", 1, 0, 0⟩ : Item)).length
    ∧ shouldStopTest 0 (List.replicate 20 ⟨"i", 1, 0, 0⟩) 5 20 (35/100) := by
  have hsqrt : Real.sqrt 10 < 10/3 := by
    rw [show (10 : ℝ)/3 = 10/3 from rfl]
    rw [Real.sqrt_lt' (by norm_num)]
    norm_num
  have hpos : 0 < Real.sqrt 10 := Real.sqrt_pos.mpr (by norm_num)
  have hgt : (3 : ℝ)/10 < 1 / Real.sqrt 10 := by
    rw [div_lt_div_iff (by norm_num) hpos]
    nlinarith
  refine ⟨?_, by simp, ?_⟩
  · unfold shouldStopTestDefault shouldStopTest semLE
    simp only [List.length_replicate]
    rw [if_neg (by norm_num), if_neg (by norm_num)]
    rintro ⟨-, hle⟩
    rw [totalInformation_twenty, show (0.3 : ℝ) = 3/10 from by norm_num] at hle
    linarith
  · unfold shouldStopTest
    simp only [List.length_replicate]
    norm_num

/-- C5 counterexample: at θ = 1 on the item (a=1, b=0, c=0) the code's
`itemInformation` equals `1/(1+e)` while the specification's formula gives
`e/(1+e)`; the two differ because `e ≠ 1`. -/
theorem itemInformation_ne_spec :
    itemInformation 1 ⟨"i", 1, 0, 0⟩ ≠ specItemInformation 1 ⟨"i", 1, 0, 0⟩ := by
  unfold itemInformation specItemInformation
  have he : (1 : ℝ) < Real.exp 1 := by
    have := Real.exp_one_gt_d9
    linarith
  have hpos : (0 : ℝ) < 1 + Real.exp 1 := by linarith
  intro h
  norm_num at h
  rw [inv_eq_one_div, div_eq_div_iff (ne_of_gt hpos) (ne_of_gt hpos)] at h
  nlinarith

/-- C5 amended: `itemInformation` computes
`a²(1−c) / ((1+e^{a(θ−b)})·(1+c·e^{a(θ−b)}))` — without the numerator
factor `e^{a(θ−b)}` stated by the specification — and for `a > 0`,
`b ∈ [−4,4]`, `c ∈ [0, 0.35]` this value is non-negative. -/
theorem itemInformation_formula_nonneg (theta : ℝ) (item : Item) (ha : 0 < item.a)
    (hb1 : -4 ≤ item.b) (hb2 : item.b ≤ 4) (hc0 : 0 ≤ item.c) (hc1 : item.c ≤ 7/20) :
    itemInformation theta item
      = item.a ^ 2 * (1 - item.c) /
        ((1 + Real.exp (item.a * (theta - item.b)))
          * (1 + item.c * Real.exp (item.a * (theta - item.b))))
    ∧ 0 ≤ itemInformation theta item := by
  have hexp := Real.exp_pos (item.a * (theta - item.b))
  constructor
  · unfold itemInformation
    ring_nf
  · unfold itemInformation
    apply div_nonneg
    · nlinarith [mul_self_nonneg item.a]
    · have h1 : (0 : ℝ) < 1 + Real.exp (item.a * (theta - item.b)) := by linarith
      have h2 : (0 : ℝ) < 1 + Real.exp (item.a * (theta - item.b)) * item.c := by nlinarith
      exact le_of_lt (mul_pos h1 h2)

/-- Witness for C5 at θ = 0 on the item (a=1, b=0, c=0). -/
theorem itemInformation_formula_nonneg_witness :
    ((0 : ℝ) < 1 ∧ (-4 : ℝ) ≤ 0 ∧ (0 : ℝ) ≤ 4 ∧ (0 : ℝ) ≤ 0 ∧ (0 : ℝ) ≤ 7/20) ∧
    (itemInformation 0 ⟨"i", 1, 0, 0⟩
      = (1 : ℝ) ^ 2 * (1 - 0) /
        ((1 + Real.exp (1 * ((0 : ℝ) - 0))) * (1 + 0 * Real.exp (1 * ((0 : ℝ) - 0))))
    ∧ 0 ≤ itemInformation 0 ⟨"i", 1, 0, 0⟩) :=
  ⟨⟨by norm_num, by norm_num, by norm_num, le_refl 0, by norm_num⟩,
    itemInformation_formula_nonneg 0 ⟨"i", 1, 0, 0⟩ (by norm_num) (by norm_num)
      (by norm_num) (le_refl 0) (by norm_num)⟩

/-- Unfolding of one Newton–Raphson iteration of `estimateAbilityGo`. -/
theorem estimateAbilityGo_succ (ps : List (ℝ × Item)) (tol : ℝ) (n : ℕ) (theta : ℝ) :
    estimateAbilityGo ps tol (n + 1) theta =
      if |(nrDerivs theta ps).2| < 1e-10 then theta
      else if |(nrDerivs theta ps).1 / (nrDerivs theta ps).2| < tol then
        max (-4) (min 4 (theta - (nrDerivs theta ps).1 / (nrDerivs theta ps).2))
      else estimateAbilityGo ps tol n
        (max (-4) (min 4 (theta - (nrDerivs theta ps).1 / (nrDerivs theta ps).2))) := rfl

/-- `nrDerivs` on a single response/item pair. -/
theorem nrDerivs_single (theta u : ℝ) (it : Item) :
    nrDerivs theta [(u, it)] =
      ((u - probabilityCorrect theta it) * it.a * (1 - it.c)
          / (1 - probabilityCorrect theta it),
       -(itemInformation theta it)) := by
  unfold nrDerivs
  simp [List.foldl]

/-- Probability of the test item (a = 1/10, b = 0, c = 0) at θ = 0. -/
theorem pc_zero : probabilityCorrect 0 ⟨"t", 1/10, 0, 0⟩ = 1/2 := by
  unfold probabilityCorrect
  norm_num [Real.exp_zero]

/-- Information of the test item at θ = 0. -/
theorem info_zero : itemInformation 0 ⟨"t", 1/10, 0, 0⟩ = 1/200 := by
  unfold itemInformation
  norm_num [Real.exp_zero]

/-- Probability of the test item at θ = 4. -/
theorem pc_four : probabilityCorrect 4 ⟨"t", 1/10, 0, 0⟩ = 1 / (1 + Real.exp (-(2/5))) := by
  unfold probabilityCorrect
  norm_num

/-- Information of the test item at θ = 4. -/
theorem info_four : itemInformation 4 ⟨"t", 1/10, 0, 0⟩ = 1/100 / (1 + Real.exp (2/5)) := by
  unfold itemInformation
  norm_num

/-- Probability of the test item at θ = −4. -/
theorem pc_negfour :
    probabilityCorrect (-4) ⟨"t", 1/10, 0, 0⟩ = 1 / (1 + Real.exp (2/5)) := by
  unfold probabilityCorrect
  norm_num

/-- Information of the test item at θ = −4. -/
theorem info_negfour :
    itemInformation (-4) ⟨"t", 1/10, 0, 0⟩ = 1/100 / (1 + Real.exp (-(2/5))) := by
  unfold itemInformation
  norm_num

/-- `exp(2/5)` lies strictly between 1 and 3. -/
theorem exp_two_fifths_bounds : 1 < Real.exp (2/5) ∧ Real.exp (2/5) < 3 := by
  constructor
  · rw [Real.one_lt_exp_iff]
    norm_num
  · calc Real.exp (2/5) < Real.exp 1 := Real.exp_lt_exp.mpr (by norm_num)
      _ < 2.7182818286 := Real.exp_one_lt_d9
      _ < 3 := by norm_num

/-- At θ = 4 the Newton step of the single test item keeps θ at 4. -/
theorem hd_four :
    nrDerivs 4 [((1 : ℝ), ⟨"t", 1/10, 0, 0⟩)]
      = (1/10, -(1/100 / (1 + Real.exp (2/5)))) := by
  rw [nrDerivs_single, pc_four, info_four]
  have hE := Real.exp_pos (-(2/5) : ℝ)
  have hq : (0 : ℝ) < 1 - 1 / (1 + Real.exp (-(2/5))) := by
    have h1 : (1 : ℝ) / (1 + Real.exp (-(2/5))) < 1 := by
      rw [div_lt_one (by positivity)]
      linarith
    linarith
  simp only [Prod.mk.injEq]
  constructor
  · dsimp only
    rw [show ((1 : ℝ) - 0) = 1 from by norm_num, mul_one, mul_comm, mul_div_assoc,
      div_self (ne_of_gt hq), mul_one]
  · trivial

/-- At θ = −4 the Newton step of the single test item (all-incorrect) keeps
θ at −4. -/
theorem hd_negfour :
    nrDerivs (-4) [((0 : ℝ), ⟨"t", 1/10, 0, 0⟩)]
      = (-(1/10) / Real.exp (2/5), -(1/100 / (1 + Real.exp (-(2/5))))) := by
  rw [nrDerivs_single, pc_negfour, info_negfour]
  have hE := Real.exp_pos (2/5 : ℝ)
  have hq : (1 : ℝ) - 1 / (1 + Real.exp (2/5)) = Real.exp (2/5) / (1 + Real.exp (2/5)) := by
    field_simp
  have h1 : (1 : ℝ) + Real.exp (2/5) ≠ 0 := by positivity
  have h2 : Real.exp (2/5) ≠ 0 := ne_of_gt hE
  simp only [Prod.mk.injEq]
  constructor
  · dsimp only
    rw [hq]
    field_simp
    ring
  · trivial

/-- The fuel-indexed Newton loop on the all-correct test pair is fixed at
θ = 4. -/
theorem go_fixed_four : ∀ n : ℕ,
    estimateAbilityGo [((1 : ℝ), ⟨"t", 1/10, 0, 0⟩)] 0.001 n 4 = 4 := by
  intro n
  induction n with
  | zero => rfl
  | succ n ih =>
    obtain ⟨hE1, hE3⟩ := exp_two_fifths_bounds
    have hEpos : (0 : ℝ) < Real.exp (2/5) := by linarith
    rw [estimateAbilityGo_succ, hd_four]
    have hsd : ¬(|(-(1/100 / (1 + Real.exp (2/5))))| < 1e-10) := by
      rw [abs_neg, abs_of_pos (by positivity), not_lt]
      have hge : (1/400 : ℝ) ≤ 1/100 / (1 + Real.exp (2/5)) := by
        rw [div_le_div_iff (by norm_num) (by positivity)]
        nlinarith
      calc (1e-10 : ℝ) ≤ 1/400 := by norm_num
        _ ≤ _ := hge
    have hdelta : (1/10 : ℝ) / (-(1/100 / (1 + Real.exp (2/5))))
        = -(10 * (1 + Real.exp (2/5))) := by
      field_simp
      ring
    simp only
    rw [if_neg hsd, hdelta]
    have htol : ¬(|(-(10 * (1 + Real.exp (2/5))))| < 0.001) := by
      rw [abs_neg, abs_of_pos (by nlinarith), not_lt]
      nlinarith
    rw [if_neg htol]
    have hmin : min 4 ((4 : ℝ) - -(10 * (1 + Real.exp (2/5)))) = 4 := by
      rw [min_eq_left]
      nlinarith
    rw [hmin]
    rw [max_eq_right (by norm_num : (-4 : ℝ) ≤ 4)]
    exact ih

/-- The fuel-indexed Newton loop on the all-incorrect test pair is fixed at
θ = −4. -/
theorem go_fixed_negfour : ∀ n : ℕ,
    estimateAbilityGo [((0 : ℝ), ⟨"t", 1/10, 0, 0⟩)] 0.001 n (-4) = -4 := by
  intro n
  induction n with
  | zero => rfl
  | succ n ih =>
    obtain ⟨hE1, hE3⟩ := exp_two_fifths_bounds
    have hEpos : (0 : ℝ) < Real.exp (2/5) := by linarith
    have hEneg : (0 : ℝ) < Real.exp (-(2/5)) := Real.exp_pos _
    have hEneg1 : Real.exp (-(2/5)) < 1 := by
      rw [Real.exp_lt_one_iff]
      norm_num
    rw [estimateAbilityGo_succ, hd_negfour]
    have hsd : ¬(|(-(1/100 / (1 + Real.exp (-(2/5)))))| < 1e-10) := by
      rw [abs_neg, abs_of_pos (by positivity), not_lt]
      have hge : (1/400 : ℝ) ≤ 1/100 / (1 + Real.exp (-(2/5))) := by
        rw [div_le_div_iff (by norm_num) (by positivity)]
        nlinarith
      calc (1e-10 : ℝ) ≤ 1/400 := by norm_num
        _ ≤ _ := hge
    have hdelta : (-(1/10) / Real.exp (2/5) : ℝ) / (-(1/100 / (1 + Real.exp (-(2/5)))))
        = 10 * (1 + Real.exp (-(2/5))) / Real.exp (2/5) := by
      have h1 : (1 : ℝ) + Real.exp (-(2/5)) ≠ 0 := by positivity
      have h2 : Real.exp (2/5) ≠ 0 := ne_of_gt hEpos
      field_simp
      ring
    simp only
    rw [if_neg hsd, hdelta]
    have hdpos : (0 : ℝ) < 10 * (1 + Real.exp (-(2/5))) / Real.exp (2/5) := by positivity
    have hdbig : (0.001 : ℝ) ≤ 10 * (1 + Real.exp (-(2/5))) / Real.exp (2/5) := by
      rw [show (0.001 : ℝ) = 1/1000 from by norm_num, div_le_div_iff (by norm_num) hEpos]
      nlinarith
    have htol : ¬(|(10 * (1 + Real.exp (-(2/5))) / Real.exp (2/5) : ℝ)| < 0.001) := by
      rw [abs_of_pos hdpos, not_lt]
      exact hdbig
    rw [if_neg htol]
    have hmin : min 4 ((-4 : ℝ) - 10 * (1 + Real.exp (-(2/5))) / Real.exp (2/5))
        = (-4 : ℝ) - 10 * (1 + Real.exp (-(2/5))) / Real.exp (2/5) := by
      rw [min_eq_right]
      nlinarith
    rw [hmin]
    have hmax : max (-4 : ℝ) ((-4 : ℝ) - 10 * (1 + Real.exp (-(2/5))) / Real.exp (2/5))
        = -4 := by
      rw [max_eq_left]
      nlinarith
    rw [hmax]
    exact ih

/-- C4 counterexample: `estimateAbility` does not fail on degenerate input —
on the item (a = 0.1, b = 0, c = 0) the all-correct vector returns exactly
θ = +4 and the all-incorrect vector exactly θ = −4: the Newton update
diverges into the per-iteration clamp and the function itself returns the
boundary value; no `EstimationDiverged` error exists and no caller
substitutes a sentinel. -/
theorem estimateAbility_returns_clamped_value :
    estimateAbility [1] [⟨"t", 1/10, 0, 0⟩] = 4
    ∧ estimateAbility [0] [⟨"t", 1/10, 0, 0⟩] = -4 := by
  constructor
  · show estimateAbilityGo [((1 : ℝ), ⟨"t", 1/10, 0, 0⟩)] 0.001 50 0 = 4
    rw [show (50 : ℕ) = 49 + 1 from rfl, estimateAbilityGo_succ]
    have hd0 : nrDerivs 0 [((1 : ℝ), ⟨"t", 1/10, 0, 0⟩)] = (1/10, -(1/200)) := by
      rw [nrDerivs_single, pc_zero, info_zero]
      norm_num
    rw [hd0]
    have hsd : ¬(|(-(1/200) : ℝ)| < 1e-10) := by
      rw [abs_neg, abs_of_pos (by norm_num), not_lt]
      norm_num
    have hdelta : ((1/10 : ℝ)) / (-(1/200)) = -20 := by norm_num
    simp only
    rw [if_neg hsd, hdelta]
    rw [if_neg (by rw [abs_neg, abs_of_pos] <;> norm_num)]
    rw [show min 4 ((0 : ℝ) - -20) = 4 from by rw [min_eq_left] <;> norm_num,
      max_eq_right (by norm_num : (-4 : ℝ) ≤ 4)]
    exact go_fixed_four 49
  · show estimateAbilityGo [((0 : ℝ), ⟨"t", 1/10, 0, 0⟩)] 0.001 50 0 = -4
    rw [show (50 : ℕ) = 49 + 1 from rfl, estimateAbilityGo_succ]
    have hd0 : nrDerivs 0 [((0 : ℝ), ⟨"t", 1/10, 0, 0⟩)] = (-(1/10), -(1/200)) := by
      rw [nrDerivs_single, pc_zero, info_zero]
      norm_num
    rw [hd0]
    have hsd : ¬(|(-(1/200) : ℝ)| < 1e-10) := by
      rw [abs_neg, abs_of_pos (by norm_num), not_lt]
      norm_num
    have hdelta : ((-(1/10) : ℝ)) / (-(1/200)) = 20 := by norm_num
    simp only
    rw [if_neg hsd, hdelta]
    rw [if_neg (by rw [abs_of_pos] <;> norm_num)]
    rw [show min 4 ((0 : ℝ) - 20) = -20 from by rw [min_eq_right] <;> norm_num,
      show max (-4 : ℝ) (-20) = -4 from by rw [max_eq_left] <;> norm_num]
    exact go_fixed_negfour 49

/-- The `nrDerivs` accumulation as a pair of sums. -/
theorem nrDerivs_eq (theta : ℝ) : ∀ (ps : List (ℝ × Item)) (acc : ℝ × ℝ),
    ps.foldl (fun acc p =>
      (acc.1 + (p.1 - probabilityCorrect theta p.2) * p.2.a * (1 - p.2.c)
          / (1 - probabilityCorrect theta p.2),
       acc.2 - itemInformation theta p.2)) acc
    = (acc.1 + (ps.map (fun p => (p.1 - probabilityCorrect theta p.2) * p.2.a * (1 - p.2.c)
          / (1 - probabilityCorrect theta p.2))).sum,
       acc.2 - (ps.map (fun p => itemInformation theta p.2)).sum)
  | [], acc => by simp
  | p :: ps, acc => by
      rw [List.foldl_cons, nrDerivs_eq theta ps]
      simp only [List.map_cons, List.sum_cons, Prod.mk.injEq]
      constructor <;> ring

/-- `probabilityCorrect` lies strictly between 0 and 1 for a valid item. -/
theorem probabilityCorrect_bounds (theta : ℝ) (it : Item) (ha : 0 < it.a)
    (hc0 : 0 ≤ it.c) (hc1 : it.c < 1) :
    0 < probabilityCorrect theta it ∧ probabilityCorrect theta it < 1 := by
  unfold probabilityCorrect
  have hE := Real.exp_pos (-it.a * (theta - it.b))
  have hL0 : (0 : ℝ) < 1 / (1 + Real.exp (-it.a * (theta - it.b))) := by positivity
  have hL1 : (1 : ℝ) / (1 + Real.exp (-it.a * (theta - it.b))) < 1 := by
    rw [div_lt_one (by positivity)]
    linarith
  constructor <;> nlinarith

/-- `itemInformation` is strictly positive for a valid item. -/
theorem itemInformation_pos (theta : ℝ) (it : Item) (ha : 0 < it.a)
    (hc0 : 0 ≤ it.c) (hc1 : it.c < 1) :
    0 < itemInformation theta it := by
  unfold itemInformation
  have hE := Real.exp_pos (it.a * (theta - it.b))
  have h2 : (0 : ℝ) < 1 + Real.exp (it.a * (theta - it.b)) * it.c := by
    nlinarith [mul_nonneg hE.le hc0]
  apply div_pos
  · nlinarith [mul_pos ha ha]
  · exact mul_pos (by linarith) h2

/-- With positive first derivative and negative second derivative at every θ,
the clamped Newton iteration never decreases and stays in [−4, 4]. -/
theorem estimateAbilityGo_bounds_up (ps : List (ℝ × Item)) (tol : ℝ)
    (hfd : ∀ theta : ℝ, 0 < (nrDerivs theta ps).1)
    (hsd : ∀ theta : ℝ, (nrDerivs theta ps).2 < 0) :
    ∀ (n : ℕ) (theta : ℝ), -4 ≤ theta → theta ≤ 4 →
      theta ≤ estimateAbilityGo ps tol n theta
      ∧ -4 ≤ estimateAbilityGo ps tol n theta ∧ estimateAbilityGo ps tol n theta ≤ 4 := by
  intro n
  induction n with
  | zero => exact fun theta h1 h2 => ⟨le_refl _, h1, h2⟩
  | succ n ih =>
    intro theta h1 h2
    rw [estimateAbilityGo_succ]
    have hdneg : (nrDerivs theta ps).1 / (nrDerivs theta ps).2 < 0 :=
      div_neg_of_pos_of_neg (hfd theta) (hsd theta)
    have hth2ge : theta
        ≤ max (-4) (min 4 (theta - (nrDerivs theta ps).1 / (nrDerivs theta ps).2)) :=
      le_trans (le_min h2 (by linarith)) (le_max_right _ _)
    have hb1 : (-4 : ℝ)
        ≤ max (-4) (min 4 (theta - (nrDerivs theta ps).1 / (nrDerivs theta ps).2)) :=
      le_max_left _ _
    have hb2 : max (-4) (min 4 (theta - (nrDerivs theta ps).1 / (nrDerivs theta ps).2))
        ≤ 4 := max_le (by norm_num) (min_le_left _ _)
    split_ifs with hg1 hg2
    · exact ⟨le_refl _, h1, h2⟩
    · exact ⟨hth2ge, hb1, hb2⟩
    · obtain ⟨ha', hb', hc'⟩ := ih _ hb1 hb2
      exact ⟨le_trans hth2ge ha', hb', hc'⟩

/-- With negative first derivative and negative second derivative at every θ,
the clamped Newton iteration never increases and stays in [−4, 4]. -/
theorem estimateAbilityGo_bounds_down (ps : List (ℝ × Item)) (tol : ℝ)
    (hfd : ∀ theta : ℝ, (nrDerivs theta ps).1 < 0)
    (hsd : ∀ theta : ℝ, (nrDerivs theta ps).2 < 0) :
    ∀ (n : ℕ) (theta : ℝ), -4 ≤ theta → theta ≤ 4 →
      estimateAbilityGo ps tol n theta ≤ theta
      ∧ -4 ≤ estimateAbilityGo ps tol n theta ∧ estimateAbilityGo ps tol n theta ≤ 4 := by
  intro n
  induction n with
  | zero => exact fun theta h1 h2 => ⟨le_refl _, h1, h2⟩
  | succ n ih =>
    intro theta h1 h2
    rw [estimateAbilityGo_succ]
    have hdpos : 0 < (nrDerivs theta ps).1 / (nrDerivs theta ps).2 :=
      div_pos_of_neg_of_neg (hfd theta) (hsd theta)
    have hth2le : max (-4) (min 4 (theta - (nrDerivs theta ps).1 / (nrDerivs theta ps).2))
        ≤ theta :=
      max_le h1 (le_trans (min_le_right _ _) (by linarith))
    have hb1 : (-4 : ℝ)
        ≤ max (-4) (min 4 (theta - (nrDerivs theta ps).1 / (nrDerivs theta ps).2)) :=
      le_max_left _ _
    have hb2 : max (-4) (min 4 (theta - (nrDerivs theta ps).1 / (nrDerivs theta ps).2))
        ≤ 4 := max_le (by norm_num) (min_le_left _ _)
    split_ifs with hg1 hg2
    · exact ⟨le_refl _, h1, h2⟩
    · exact ⟨hth2le, hb1, hb2⟩
    · obtain ⟨ha', hb', hc'⟩ := ih _ hb1 hb2
      exact ⟨le_trans ha' hth2le, hb', hc'⟩

/-- A non-empty list of negative reals has negative sum. -/
theorem list_sum_neg {l : List ℝ} (h : ∀ x ∈ l, x < 0) (hne : l ≠ []) : l.sum < 0 := by
  have hpos : 0 < (l.map (fun x => -x)).sum := by
    apply List.sum_pos
    · intro x hx
      rw [List.mem_map] at hx
      obtain ⟨y, hy, rfl⟩ := hx
      linarith [h y hy]
    · simpa using hne
  have hmapneg : ∀ l' : List ℝ, (l'.map (fun x => -x)).sum = -l'.sum := by
    intro l'
    induction l' with
    | nil => simp
    | cons a t ih =>
        simp only [List.map_cons, List.sum_cons, ih]
        ring
  rw [hmapneg] at hpos
  linarith

/-- The Newton loop with no response/item pairs stops at once (second
derivative 0 triggers the `1e-10` guard). -/
theorem estimateAbilityGo_nil (tol theta : ℝ) (n : ℕ) :
    estimateAbilityGo [] tol (n + 1) theta = theta := by
  rw [estimateAbilityGo_succ]
  rw [if_pos]
  show |(nrDerivs theta []).2| < 1e-10
  show |(0 : ℝ × ℝ).2| < 1e-10
  norm_num

/-- C4 amended: `estimateAbility` never fails.  On an all-correct response
vector over valid items (a > 0, 0 ≤ c < 1) it returns a value in [0, 4]
(every Newton update moves upward into the clamp), and on an all-incorrect
vector a value in [−4, 0]; the ±4 sentinels are produced by the function's
own per-iteration clamp, not by an error-handling caller. -/
theorem estimateAbility_degenerate_bounds :
    (∀ (responses : List ℝ) (items : List Item),
        (∀ p ∈ responses.zip items, p.1 = 1) →
        (∀ it ∈ items, 0 < it.a ∧ 0 ≤ it.c ∧ it.c < 1) →
        0 ≤ estimateAbility responses items ∧ estimateAbility responses items ≤ 4)
    ∧ (∀ (responses : List ℝ) (items : List Item),
        (∀ p ∈ responses.zip items, p.1 = 0) →
        (∀ it ∈ items, 0 < it.a ∧ 0 ≤ it.c ∧ it.c < 1) →
        -4 ≤ estimateAbility responses items ∧ estimateAbility responses items ≤ 0) := by
  have hinfo : ∀ (items : List Item), (∀ it ∈ items, 0 < it.a ∧ 0 ≤ it.c ∧ it.c < 1) →
      ∀ (ps : List (ℝ × Item)), (∀ p ∈ ps, p.2 ∈ items) → ps ≠ [] →
      ∀ theta : ℝ, (nrDerivs theta ps).2 < 0 := by
    intro items hgood ps hmem hne theta
    unfold nrDerivs
    rw [nrDerivs_eq]
    simp only [zero_sub, neg_neg, neg_lt, neg_zero]
    apply List.sum_pos
    · intro x hx
      rw [List.mem_map] at hx
      obtain ⟨p, hp, rfl⟩ := hx
      obtain ⟨ha, hc0, hc1⟩ := hgood p.2 (hmem p hp)
      exact itemInformation_pos theta p.2 ha hc0 hc1
    · simpa using hne
  constructor
  · intro responses items hones hgood
    unfold estimateAbility
    rcases eq_or_ne (responses.zip items) [] with hz | hz
    · rw [hz, show (50 : ℕ) = 49 + 1 from rfl, estimateAbilityGo_nil]
      norm_num
    · have hmem : ∀ p ∈ responses.zip items, p.2 ∈ items :=
        fun p hp => (List.of_mem_zip hp).2
      have hfd : ∀ theta : ℝ, 0 < (nrDerivs theta (responses.zip items)).1 := by
        intro theta
        unfold nrDerivs
        rw [nrDerivs_eq]
        simp only [zero_add]
        apply List.sum_pos
        · intro x hx
          rw [List.mem_map] at hx
          obtain ⟨p, hp, rfl⟩ := hx
          obtain ⟨ha, hc0, hc1⟩ := hgood p.2 (hmem p hp)
          obtain ⟨hP0, hP1⟩ := probabilityCorrect_bounds theta p.2 ha hc0 hc1
          rw [hones p hp]
          apply div_pos _ (by linarith)
          have hq : (0 : ℝ) < 1 - probabilityCorrect theta p.2 := by linarith
          exact mul_pos (mul_pos hq ha) (by linarith)
        · simpa using hz
      have hsd := hinfo items hgood (responses.zip items) hmem hz
      obtain ⟨h1, _, h3⟩ := estimateAbilityGo_bounds_up (responses.zip items) 0.001 hfd hsd
        50 0 (by norm_num) (by norm_num)
      exact ⟨h1, h3⟩
  · intro responses items hzeros hgood
    unfold estimateAbility
    rcases eq_or_ne (responses.zip items) [] with hz | hz
    · rw [hz, show (50 : ℕ) = 49 + 1 from rfl, estimateAbilityGo_nil]
      norm_num
    · have hmem : ∀ p ∈ responses.zip items, p.2 ∈ items :=
        fun p hp => (List.of_mem_zip hp).2
      have hfd : ∀ theta : ℝ, (nrDerivs theta (responses.zip items)).1 < 0 := by
        intro theta
        unfold nrDerivs
        rw [nrDerivs_eq]
        simp only [zero_add]
        apply list_sum_neg _ (by simpa using hz)
        intro x hx
        rw [List.mem_map] at hx
        obtain ⟨p, hp, rfl⟩ := hx
        obtain ⟨ha, hc0, hc1⟩ := hgood p.2 (hmem p hp)
        obtain ⟨hP0, hP1⟩ := probabilityCorrect_bounds theta p.2 ha hc0 hc1
        rw [hzeros p hp]
        apply div_neg_of_neg_of_pos _ (by linarith)
        have hq : (0 : ℝ) < probabilityCorrect theta p.2 * p.2.a * (1 - p.2.c) :=
          mul_pos (mul_pos hP0 ha) (by linarith)
        nlinarith
      have hsd := hinfo items hgood (responses.zip items) hmem hz
      obtain ⟨h1, h2, _⟩ := estimateAbilityGo_bounds_down (responses.zip items) 0.001 hfd hsd
        50 0 (by norm_num) (by norm_num)
      exact ⟨h2, h1⟩

/-- Witness for C4: the all-correct single-response instance on the test
item. -/
theorem estimateAbility_degenerate_bounds_witness :
    ((∀ p ∈ ([1] : List ℝ).zip [(⟨"t", 1/10, 0, 0⟩ : Item)], p.1 = 1)
      ∧ (∀ it ∈ [(⟨"t", 1/10, 0, 0⟩ : Item)], 0 < it.a ∧ 0 ≤ it.c ∧ it.c < 1))
    ∧ (0 ≤ estimateAbility [1] [⟨"t", 1/10, 0, 0⟩]
        ∧ estimateAbility [1] [⟨"t", 1/10, 0, 0⟩] ≤ 4) := by
  have h1 : ∀ p ∈ ([1] : List ℝ).zip [(⟨"t", 1/10, 0, 0⟩ : Item)], p.1 = 1 := by
    intro p hp
    simp only [List.zip, List.zipWith, List.mem_singleton] at hp
    rw [hp]
  have h2 : ∀ it ∈ [(⟨"t", 1/10, 0, 0⟩ : Item)], 0 < it.a ∧ 0 ≤ it.c ∧ it.c < 1 := by
    intro it hit
    rw [List.mem_singleton] at hit
    subst hit
    refine ⟨by norm_num, by norm_num, by norm_num⟩
  exact ⟨⟨h1, h2⟩, estimateAbility_degenerate_bounds.1 [1] [⟨"t", 1/10, 0, 0⟩] h1 h2⟩

/-! ## C7: rawToSten bounds, endpoints and monotonicity -/

/-- The tail denominator polynomial is positive for nonnegative arguments. -/
lemma nvDT_pos (q : ℝ) (hq : 0 ≤ q) : 0 < nvDT q := by
  unfold nvDT
  nlinarith [hq, pow_nonneg hq 2, pow_nonneg hq 3, pow_nonneg hq 4]

/-- Positive-coefficient certificate: the tail numerator is below
`-(3/2)` times the tail denominator for `q ≥ 68/25`. -/
lemma nvC_add_lt (q : ℝ) (hq : 68/25 ≤ q) : nvC q + (3/2) * nvDT q < 0 := by
  unfold nvC nvDT
  have hs : (0:ℝ) ≤ q - 68/25 := by linarith
  nlinarith [hs, pow_nonneg hs 2, pow_nonneg hs 3, pow_nonneg hs 4, pow_nonneg hs 5]

set_option maxHeartbeats 1600000 in
/-- Cross-multiplied antitonicity certificate for the tail ratio on
`[68/25, ∞)`. -/
lemma nvC_ratio_antitone_cert (q1 q2 : ℝ) (h1 : 68/25 ≤ q1) (h12 : q1 ≤ q2) :
    0 ≤ nvC q1 * nvDT q2 - nvC q2 * nvDT q1 := by
  unfold nvC nvDT
  have hs1 : (0:ℝ) ≤ q1 - 68/25 := by linarith
  have hs2 : (0:ℝ) ≤ q2 - 68/25 := by linarith
  have hd : (0:ℝ) ≤ q2 - q1 := by linarith
  nlinarith [hd, mul_nonneg (hd) (hs2), mul_nonneg (hd) (pow_nonneg hs2 2),
    mul_nonneg (hd) (pow_nonneg hs2 3), mul_nonneg (hd) (pow_nonneg hs2 4),
    mul_nonneg (hd) (hs1), mul_nonneg (mul_nonneg (hd) (hs1)) (hs2),
    mul_nonneg (mul_nonneg (hd) (hs1)) (pow_nonneg hs2 2),
    mul_nonneg (mul_nonneg (hd) (hs1)) (pow_nonneg hs2 3),
    mul_nonneg (mul_nonneg (hd) (hs1)) (pow_nonneg hs2 4),
    mul_nonneg (hd) (pow_nonneg hs1 2),
    mul_nonneg (mul_nonneg (hd) (pow_nonneg hs1 2)) (hs2),
    mul_nonneg (mul_nonneg (hd) (pow_nonneg hs1 2)) (pow_nonneg hs2 2),
    mul_nonneg (mul_nonneg (hd) (pow_nonneg hs1 2)) (pow_nonneg hs2 3),
    mul_nonneg (mul_nonneg (hd) (pow_nonneg hs1 2)) (pow_nonneg hs2 4),
    mul_nonneg (hd) (pow_nonneg hs1 3),
    mul_nonneg (mul_nonneg (hd) (pow_nonneg hs1 3)) (hs2),
    mul_nonneg (mul_nonneg (hd) (pow_nonneg hs1 3)) (pow_nonneg hs2 2),
    mul_nonneg (mul_nonneg (hd) (pow_nonneg hs1 3)) (pow_nonneg hs2 3),
    mul_nonneg (mul_nonneg (hd) (pow_nonneg hs1 3)) (pow_nonneg hs2 4),
    mul_nonneg (hd) (pow_nonneg hs1 4),
    mul_nonneg (mul_nonneg (hd) (pow_nonneg hs1 4)) (hs2),
    mul_nonneg (mul_nonneg (hd) (pow_nonneg hs1 4)) (pow_nonneg hs2 2),
    mul_nonneg (mul_nonneg (hd) (pow_nonneg hs1 4)) (pow_nonneg hs2 3),
    mul_nonneg (mul_nonneg (hd) (pow_nonneg hs1 4)) (pow_nonneg hs2 4)]

/-- The tail ratio of `normalInverse` lies below `-(3/2)` for `q ≥ 68/25`. -/
lemma tailZ_lt (q : ℝ) (hq : 68/25 ≤ q) : nvC q / nvDT q < -(3/2) := by
  have hdt := nvDT_pos q (le_trans (by norm_num) hq)
  have hlt := nvC_add_lt q hq
  rw [div_lt_iff hdt]
  linarith

/-- The tail ratio of `normalInverse` is antitone in `q` on `[68/25, ∞)`. -/
lemma tailZ_antitone (q1 q2 : ℝ) (h1 : 68/25 ≤ q1) (h12 : q1 ≤ q2) :
    nvC q2 / nvDT q2 ≤ nvC q1 / nvDT q1 := by
  have hd1 := nvDT_pos q1 (le_trans (by norm_num) h1)
  have hd2 := nvDT_pos q2 (le_trans (by norm_num) (le_trans h1 h12))
  rw [div_le_div_iff hd2 hd1]
  have := nvC_ratio_antitone_cert q1 q2 h1 h12
  linarith

/-- Bernstein certificate: the central denominator polynomial is positive on
the argument range `[0, (1903/4000)^2]`. -/
lemma nvD_pos (r : ℝ) (h0 : 0 ≤ r) (h1 : r ≤ 3621409/16000000) : 0 < nvD r := by
  unfold nvD
  have ht : (0:ℝ) ≤ 3621409/16000000 - r := by linarith
  nlinarith [pow_nonneg ht 5, mul_nonneg h0 (pow_nonneg ht 4),
    mul_nonneg (pow_nonneg h0 2) (pow_nonneg ht 3),
    mul_nonneg (pow_nonneg h0 3) (pow_nonneg ht 2),
    mul_nonneg (pow_nonneg h0 4) ht, pow_nonneg h0 5]

/-- Bernstein certificate: the central numerator polynomial is positive on
the argument range `[0, (1903/4000)^2]`. -/
lemma nvA_pos (r : ℝ) (h0 : 0 ≤ r) (h1 : r ≤ 3621409/16000000) : 0 < nvA r := by
  unfold nvA
  have ht : (0:ℝ) ≤ 3621409/16000000 - r := by linarith
  nlinarith [pow_nonneg ht 5, mul_nonneg h0 (pow_nonneg ht 4),
    mul_nonneg (pow_nonneg h0 2) (pow_nonneg ht 3),
    mul_nonneg (pow_nonneg h0 3) (pow_nonneg ht 2),
    mul_nonneg (pow_nonneg h0 4) ht, pow_nonneg h0 5]

set_option maxHeartbeats 2000000 in
/-- Two-variable Bernstein certificate: the ratio `nvA / nvD` is monotone
non-decreasing on `[0, (1903/4000)^2]` (cross-multiplied form). -/
lemma ratio_mono_cert (r1 r2 : ℝ) (hr1 : 0 ≤ r1) (h12 : r1 ≤ r2)
    (h1 : r2 ≤ 3621409/16000000) :
    0 ≤ nvA r2 * nvD r1 - nvA r1 * nvD r2 := by
  unfold nvA nvD
  have hd : (0:ℝ) ≤ r2 - r1 := by linarith
  have hr2 : (0:ℝ) ≤ r2 := le_trans hr1 h12
  have ht1 : (0:ℝ) ≤ 3621409/16000000 - r1 := by linarith
  have ht2 : (0:ℝ) ≤ 3621409/16000000 - r2 := by linarith
  nlinarith [(mul_nonneg (mul_nonneg hd (pow_nonneg (ht1) 4)) (pow_nonneg (ht2) 4)),
    (mul_nonneg (mul_nonneg hd (pow_nonneg (ht1) 4)) (mul_nonneg (hr2) (pow_nonneg (ht2) 3))),
    (mul_nonneg (mul_nonneg hd (pow_nonneg (ht1) 4)) (mul_nonneg (pow_nonneg (hr2) 2) (pow_nonneg (ht2) 2))),
    (mul_nonneg (mul_nonneg hd (pow_nonneg (ht1) 4)) (mul_nonneg (pow_nonneg (hr2) 3) (ht2))),
    (mul_nonneg (mul_nonneg hd (pow_nonneg (ht1) 4)) (pow_nonneg (hr2) 4)),
    (mul_nonneg (mul_nonneg hd (mul_nonneg (hr1) (pow_nonneg (ht1) 3))) (pow_nonneg (ht2) 4)),
    (mul_nonneg (mul_nonneg hd (mul_nonneg (hr1) (pow_nonneg (ht1) 3))) (mul_nonneg (hr2) (pow_nonneg (ht2) 3))),
    (mul_nonneg (mul_nonneg hd (mul_nonneg (hr1) (pow_nonneg (ht1) 3))) (mul_nonneg (pow_nonneg (hr2) 2) (pow_nonneg (ht2) 2))),
    (mul_nonneg (mul_nonneg hd (mul_nonneg (hr1) (pow_nonneg (ht1) 3))) (mul_nonneg (pow_nonneg (hr2) 3) (ht2))),
    (mul_nonneg (mul_nonneg hd (mul_nonneg (hr1) (pow_nonneg (ht1) 3))) (pow_nonneg (hr2) 4)),
    (mul_nonneg (mul_nonneg hd (mul_nonneg (pow_nonneg (hr1) 2) (pow_nonneg (ht1) 2))) (pow_nonneg (ht2) 4)),
    (mul_nonneg (mul_nonneg hd (mul_nonneg (pow_nonneg (hr1) 2) (pow_nonneg (ht1) 2))) (mul_nonneg (hr2) (pow_nonneg (ht2) 3))),
    (mul_nonneg (mul_nonneg hd (mul_nonneg (pow_nonneg (hr1) 2) (pow_nonneg (ht1) 2))) (mul_nonneg (pow_nonneg (hr2) 2) (pow_nonneg (ht2) 2))),
    (mul_nonneg (mul_nonneg hd (mul_nonneg (pow_nonneg (hr1) 2) (pow_nonneg (ht1) 2))) (mul_nonneg (pow_nonneg (hr2) 3) (ht2))),
    (mul_nonneg (mul_nonneg hd (mul_nonneg (pow_nonneg (hr1) 2) (pow_nonneg (ht1) 2))) (pow_nonneg (hr2) 4)),
    (mul_nonneg (mul_nonneg hd (mul_nonneg (pow_nonneg (hr1) 3) (ht1))) (pow_nonneg (ht2) 4)),
    (mul_nonneg (mul_nonneg hd (mul_nonneg (pow_nonneg (hr1) 3) (ht1))) (mul_nonneg (hr2) (pow_nonneg (ht2) 3))),
    (mul_nonneg (mul_nonneg hd (mul_nonneg (pow_nonneg (hr1) 3) (ht1))) (mul_nonneg (pow_nonneg (hr2) 2) (pow_nonneg (ht2) 2))),
    (mul_nonneg (mul_nonneg hd (mul_nonneg (pow_nonneg (hr1) 3) (ht1))) (mul_nonneg (pow_nonneg (hr2) 3) (ht2))),
    (mul_nonneg (mul_nonneg hd (mul_nonneg (pow_nonneg (hr1) 3) (ht1))) (pow_nonneg (hr2) 4)),
    (mul_nonneg (mul_nonneg hd (pow_nonneg (hr1) 4)) (pow_nonneg (ht2) 4)),
    (mul_nonneg (mul_nonneg hd (pow_nonneg (hr1) 4)) (mul_nonneg (hr2) (pow_nonneg (ht2) 3))),
    (mul_nonneg (mul_nonneg hd (pow_nonneg (hr1) 4)) (mul_nonneg (pow_nonneg (hr2) 2) (pow_nonneg (ht2) 2))),
    (mul_nonneg (mul_nonneg hd (pow_nonneg (hr1) 4)) (mul_nonneg (pow_nonneg (hr2) 3) (ht2))),
    (mul_nonneg (mul_nonneg hd (pow_nonneg (hr1) 4)) (pow_nonneg (hr2) 4))]

set_option maxHeartbeats 1000000 in
/-- Degree-11 Bernstein certificate: the central value stays below 2 on
`[0, 1903/4000]`. -/
lemma centralZ_num_lt (q : ℝ) (h0 : 0 ≤ q) (h1 : q ≤ 1903/4000) :
    q * nvA (q*q) < 2 * nvD (q*q) := by
  unfold nvA nvD
  have ht : (0:ℝ) ≤ 1903/4000 - q := by linarith
  nlinarith [pow_nonneg ht 11, mul_nonneg h0 (pow_nonneg ht 10),
    mul_nonneg (pow_nonneg h0 2) (pow_nonneg ht 9),
    mul_nonneg (pow_nonneg h0 3) (pow_nonneg ht 8),
    mul_nonneg (pow_nonneg h0 4) (pow_nonneg ht 7),
    mul_nonneg (pow_nonneg h0 5) (pow_nonneg ht 6),
    mul_nonneg (pow_nonneg h0 6) (pow_nonneg ht 5),
    mul_nonneg (pow_nonneg h0 7) (pow_nonneg ht 4),
    mul_nonneg (pow_nonneg h0 8) (pow_nonneg ht 3),
    mul_nonneg (pow_nonneg h0 9) (pow_nonneg ht 2),
    mul_nonneg (pow_nonneg h0 10) ht, pow_nonneg h0 11]

/-- The central expression is nonnegative for nonnegative `q`. -/
lemma centralF_nonneg (q : ℝ) (h0 : 0 ≤ q) (hq : q ≤ 1903/4000) :
    0 ≤ nvA (q*q) * q / nvD (q*q) := by
  have hr0 : (0:ℝ) ≤ q*q := mul_nonneg h0 h0
  have hrM : q*q ≤ 3621409/16000000 := by nlinarith
  exact div_nonneg (mul_nonneg (nvA_pos _ hr0 hrM).le h0) (nvD_pos _ hr0 hrM).le

/-- The central expression is monotone on `[0, 1903/4000]`. -/
lemma centralF_mono_nonneg (q1 q2 : ℝ) (h0 : 0 ≤ q1) (h12 : q1 ≤ q2)
    (hq : q2 ≤ 1903/4000) :
    nvA (q1*q1) * q1 / nvD (q1*q1) ≤ nvA (q2*q2) * q2 / nvD (q2*q2) := by
  have h02 : (0:ℝ) ≤ q2 := le_trans h0 h12
  have hr10 : (0:ℝ) ≤ q1*q1 := mul_nonneg h0 h0
  have hr20 : (0:ℝ) ≤ q2*q2 := mul_nonneg h02 h02
  have hr12 : q1*q1 ≤ q2*q2 := mul_le_mul h12 h12 h0 h02
  have hr2M : q2*q2 ≤ 3621409/16000000 := by nlinarith
  have hr1M : q1*q1 ≤ 3621409/16000000 := le_trans hr12 hr2M
  have hD1 := nvD_pos _ hr10 hr1M
  have hD2 := nvD_pos _ hr20 hr2M
  have hA1 := nvA_pos _ hr10 hr1M
  have hratio : nvA (q1*q1) / nvD (q1*q1) ≤ nvA (q2*q2) / nvD (q2*q2) := by
    rw [div_le_div_iff hD1 hD2]
    have := ratio_mono_cert (q1*q1) (q2*q2) hr10 hr12 hr2M
    linarith
  have e1 : nvA (q1*q1) * q1 / nvD (q1*q1) = q1 * (nvA (q1*q1) / nvD (q1*q1)) := by
    ring
  have e2 : nvA (q2*q2) * q2 / nvD (q2*q2) = q2 * (nvA (q2*q2) / nvD (q2*q2)) := by
    ring
  rw [e1, e2]
  exact mul_le_mul h12 hratio (div_nonneg hA1.le hD1.le) h02

/-- The central expression is monotone on `[-(1903/4000), 1903/4000]`. -/
lemma centralF_mono (q1 q2 : ℝ) (hlo : -(1903/4000) ≤ q1) (h12 : q1 ≤ q2)
    (hhi : q2 ≤ 1903/4000) :
    nvA (q1*q1) * q1 / nvD (q1*q1) ≤ nvA (q2*q2) * q2 / nvD (q2*q2) := by
  rcases le_or_lt 0 q1 with h1 | h1
  · exact centralF_mono_nonneg q1 q2 h1 h12 hhi
  rcases le_or_lt q2 0 with h2 | h2
  · have hm : nvA ((-q2)*(-q2)) * (-q2) / nvD ((-q2)*(-q2))
        ≤ nvA ((-q1)*(-q1)) * (-q1) / nvD ((-q1)*(-q1)) :=
      centralF_mono_nonneg (-q2) (-q1) (by linarith) (by linarith) (by linarith)
    have e1 : (-q1)*(-q1) = q1*q1 := by ring
    have e2 : (-q2)*(-q2) = q2*q2 := by ring
    rw [e1, e2] at hm
    have f1 : nvA (q2*q2) * (-q2) / nvD (q2*q2)
        = -(nvA (q2*q2) * q2 / nvD (q2*q2)) := by ring
    have f2 : nvA (q1*q1) * (-q1) / nvD (q1*q1)
        = -(nvA (q1*q1) * q1 / nvD (q1*q1)) := by ring
    rw [f1, f2] at hm
    linarith
  · have hle1 : nvA (q1*q1) * q1 / nvD (q1*q1) ≤ 0 := by
      have hpos : 0 ≤ nvA ((-q1)*(-q1)) * (-q1) / nvD ((-q1)*(-q1)) :=
        centralF_nonneg (-q1) (by linarith) (by linarith)
      have e1 : (-q1)*(-q1) = q1*q1 := by ring
      rw [e1] at hpos
      have f1 : nvA (q1*q1) * (-q1) / nvD (q1*q1)
          = -(nvA (q1*q1) * q1 / nvD (q1*q1)) := by ring
      rw [f1] at hpos
      linarith
    have hge2 : 0 ≤ nvA (q2*q2) * q2 / nvD (q2*q2) := centralF_nonneg q2 h2.le hhi
    linarith

/-- The central expression stays below 2 on `[-(1903/4000), 1903/4000]`. -/
lemma centralF_lt_two (q : ℝ) (hlo : -(1903/4000) ≤ q) (hhi : q ≤ 1903/4000) :
    nvA (q*q) * q / nvD (q*q) < 2 := by
  rcases le_or_lt 0 q with h | h
  · have hr0 : (0:ℝ) ≤ q*q := mul_nonneg h h
    have hrM : q*q ≤ 3621409/16000000 := by nlinarith
    have hD := nvD_pos _ hr0 hrM
    rw [div_lt_iff hD]
    have hlt := centralZ_num_lt q h hhi
    rw [mul_comm (nvA (q*q)) q]
    linarith
  · have hle : nvA (q*q) * q / nvD (q*q) ≤ 0 := by
      have hpos : 0 ≤ nvA ((-q)*(-q)) * (-q) / nvD ((-q)*(-q)) :=
        centralF_nonneg (-q) (by linarith) (by linarith)
      have e1 : (-q)*(-q) = q*q := by ring
      rw [e1] at hpos
      have f1 : nvA (q*q) * (-q) / nvD (q*q) = -(nvA (q*q) * q / nvD (q*q)) := by
        ring
      rw [f1] at hpos
      linarith
    linarith

/-- The central expression stays above `-2` on `[-(1903/4000), 1903/4000]`. -/
lemma centralF_gt (q : ℝ) (hlo : -(1903/4000) ≤ q) (hhi : q ≤ 1903/4000) :
    -2 < nvA (q*q) * q / nvD (q*q) := by
  have h := centralF_lt_two (-q) (by linarith) (by linarith)
  have e1 : (-q)*(-q) = q*q := by ring
  rw [e1] at h
  have f1 : nvA (q*q) * (-q) / nvD (q*q) = -(nvA (q*q) * q / nvD (q*q)) := by ring
  rw [f1] at h
  linarith

/-- Interval-arithmetic bound on the exponential used for the region
boundary. -/
lemma exp_pLow_bound : Real.exp (2312/625) < 4000/97 := by
  have he1 : Real.exp 1 < 2.7182818286 := Real.exp_one_lt_d9
  have he4 : Real.exp 4 < 2.7182818286^4 := by
    have h : Real.exp 4 = (Real.exp 1)^4 := by
      rw [← Real.exp_nat_mul]; norm_num
    rw [h]
    exact pow_lt_pow_left₀ he1 (Real.exp_pos 1).le (by norm_num)
  have h34 : (43/40:ℝ)^4 ≤ Real.exp (3/10) := by
    have h := Real.add_one_le_exp (3/40 : ℝ)
    have h2 : (43/40:ℝ) ≤ Real.exp (3/40) := by linarith
    calc (43/40:ℝ)^4 ≤ (Real.exp (3/40))^4 := pow_le_pow_left₀ (by norm_num) h2 4
      _ = Real.exp (3/10) := by rw [← Real.exp_nat_mul]; norm_num
  have hmono : Real.exp (2312/625) ≤ Real.exp (37/10) :=
    Real.exp_le_exp.mpr (by norm_num)
  have hsub : Real.exp (37/10) = Real.exp 4 / Real.exp (3/10) := by
    rw [← Real.exp_sub]; norm_num
  have hlt : Real.exp 4 / Real.exp (3/10) < 2.7182818286^4 / (43/40)^4 := by
    gcongr
  have hfin : (2.7182818286:ℝ)^4 / (43/40)^4 < 4000/97 := by norm_num
  calc Real.exp (2312/625) ≤ Real.exp (37/10) := hmono
    _ = Real.exp 4 / Real.exp (3/10) := hsub
    _ < 2.7182818286^4 / (43/40)^4 := hlt
    _ < 4000/97 := hfin

/-- In the tail region the substituted argument `√(-2 ln p)` is at least
`68/25`. -/
lemma sqrtlog_ge (p : ℝ) (h0 : 0 < p) (h1 : p ≤ 97/4000) :
    68/25 ≤ Real.sqrt (-2 * Real.log p) := by
  have hlog1 : Real.log p ≤ Real.log (97/4000) := Real.log_le_log h0 h1
  have hlog2 : Real.log (97/4000) < -(2312/625) := by
    rw [Real.log_lt_iff_lt_exp (by norm_num)]
    have hinv : Real.exp (-(2312/625)) * Real.exp (2312/625) = 1 := by
      rw [← Real.exp_add]; norm_num
    nlinarith [hinv, exp_pLow_bound, Real.exp_pos (-(2312/625) : ℝ),
      Real.exp_pos (2312/625 : ℝ)]
  have h2 : (68/25:ℝ)^2 ≤ -2 * Real.log p := by nlinarith
  calc (68/25:ℝ) = Real.sqrt ((68/25)^2) := (Real.sqrt_sq (by norm_num)).symm
    _ ≤ Real.sqrt (-2 * Real.log p) := Real.sqrt_le_sqrt h2

/-- The substituted tail argument is antitone in `p`. -/
lemma sqrtlog_antitone (p1 p2 : ℝ) (h0 : 0 < p1) (h12 : p1 ≤ p2) :
    Real.sqrt (-2 * Real.log p2) ≤ Real.sqrt (-2 * Real.log p1) := by
  apply Real.sqrt_le_sqrt
  have := Real.log_le_log h0 h12
  linarith

/-- In the lower tail region `normalInverse` stays below `-(3/2)`. -/
lemma normalInverse_tail_lt (p : ℝ) (h0 : 0 < p) (h1 : p < pLow) :
    normalInverse p < -(3/2) := by
  unfold normalInverse
  rw [if_pos h1]
  have hq : 68/25 ≤ Real.sqrt (-2 * Real.log p) := by
    apply sqrtlog_ge p h0
    unfold pLow at h1
    norm_num at h1 ⊢
    linarith
  exact tailZ_lt _ hq

/-- In the central region `normalInverse` lies strictly between `-2` and 2. -/
lemma normalInverse_central_bounds (p : ℝ) (ha : ¬ p < pLow) (hb : p ≤ 1 - pLow) :
    -2 < normalInverse p ∧ normalInverse p < 2 := by
  unfold normalInverse
  rw [if_neg ha, if_pos hb]
  push_neg at ha
  unfold pLow at ha hb
  norm_num at ha hb
  have h1 : -(1903/4000 : ℝ) ≤ p - 0.5 := by norm_num; linarith
  have h2 : p - 0.5 ≤ (1903/4000 : ℝ) := by norm_num; linarith
  exact ⟨centralF_gt _ h1 h2, centralF_lt_two _ h1 h2⟩

/-- In the upper tail region `normalInverse` stays above `3/2`. -/
lemma normalInverse_upper_gt (p : ℝ) (hb : ¬ p ≤ 1 - pLow) (h1 : p < 1) :
    3/2 < normalInverse p := by
  unfold normalInverse
  have hb2 : 1 - pLow < p := lt_of_not_ge hb
  have ha : ¬ p < pLow := by
    push_neg
    unfold pLow at hb2 ⊢
    norm_num at hb2 ⊢
    linarith
  rw [if_neg ha, if_neg hb]
  have h1p : 0 < 1 - p := by linarith
  have h1pl : 1 - p ≤ 97/4000 := by
    unfold pLow at hb2
    norm_num at hb2
    linarith
  have hq := sqrtlog_ge (1 - p) h1p h1pl
  have := tailZ_lt _ hq
  linarith

/-- `normalInverse` is monotone within the lower tail region. -/
lemma normalInverse_mono_tail (p1 p2 : ℝ) (h0 : 0 < p1) (h12 : p1 ≤ p2)
    (h2 : p2 < pLow) : normalInverse p1 ≤ normalInverse p2 := by
  unfold normalInverse
  rw [if_pos (lt_of_le_of_lt h12 h2), if_pos h2]
  have h02 : 0 < p2 := lt_of_lt_of_le h0 h12
  have hq2 : 68/25 ≤ Real.sqrt (-2 * Real.log p2) := by
    apply sqrtlog_ge p2 h02
    unfold pLow at h2
    norm_num at h2 ⊢
    linarith
  have hqle : Real.sqrt (-2 * Real.log p2) ≤ Real.sqrt (-2 * Real.log p1) :=
    sqrtlog_antitone p1 p2 h0 h12
  exact tailZ_antitone _ _ hq2 hqle

/-- `normalInverse` is monotone within the central region. -/
lemma normalInverse_mono_central (p1 p2 : ℝ) (h12 : p1 ≤ p2) (ha : ¬ p1 < pLow)
    (hb : p2 ≤ 1 - pLow) : normalInverse p1 ≤ normalInverse p2 := by
  unfold normalInverse
  have ha2 : ¬ p2 < pLow := fun hlt => ha (lt_of_le_of_lt h12 hlt)
  have hb1 : p1 ≤ 1 - pLow := le_trans h12 hb
  rw [if_neg ha, if_neg ha2, if_pos hb1, if_pos hb]
  push_neg at ha
  unfold pLow at ha hb
  norm_num at ha hb
  have h1 : -(1903/4000 : ℝ) ≤ p1 - 0.5 := by norm_num; linarith
  have h2 : p2 - 0.5 ≤ (1903/4000 : ℝ) := by norm_num; linarith
  exact centralF_mono _ _ h1 (by linarith) h2

/-- `normalInverse` is monotone within the upper tail region. -/
lemma normalInverse_mono_upper (p1 p2 : ℝ) (h12 : p1 ≤ p2) (hb : ¬ p1 ≤ 1 - pLow)
    (h2 : p2 < 1) : normalInverse p1 ≤ normalInverse p2 := by
  unfold normalInverse
  have hb2 : ¬ p2 ≤ 1 - pLow := fun hle => hb (le_trans h12 hle)
  have hb1 : 1 - pLow < p1 := lt_of_not_ge hb
  have ha1 : ¬ p1 < pLow := by
    push_neg
    unfold pLow at hb1 ⊢
    norm_num at hb1 ⊢
    linarith
  have ha2 : ¬ p2 < pLow := fun hlt => ha1 (lt_of_le_of_lt h12 hlt)
  rw [if_neg ha1, if_neg ha2, if_neg hb, if_neg hb2]
  have h1p2 : 0 < 1 - p2 := by linarith
  have h1pl : 1 - p1 ≤ 97/4000 := by
    unfold pLow at hb1
    norm_num at hb1
    linarith
  have hq1 : 68/25 ≤ Real.sqrt (-2 * Real.log (1 - p1)) :=
    sqrtlog_ge (1 - p1) (by linarith) h1pl
  have hqle : Real.sqrt (-2 * Real.log (1 - p1)) ≤ Real.sqrt (-2 * Real.log (1 - p2)) :=
    sqrtlog_antitone (1 - p2) (1 - p1) h1p2 (by linarith)
  have := tailZ_antitone _ _ hq1 hqle
  linarith

/-- `Math.round` is monotone. -/
lemma jsRound_mono {x y : ℝ} (h : x ≤ y) : jsRound x ≤ jsRound y := by
  unfold jsRound
  exact Int.floor_mono (by linarith)

/-- The clamped rounded STEN value is always in `[1, 10]`. -/
lemma stenOf_bounds (p : ℝ) : 1 ≤ stenOf p ∧ stenOf p ≤ 10 := by
  unfold stenOf
  exact ⟨le_max_left 1 _, max_le (by norm_num) (min_le_left 10 _)⟩

/-- The clamped rounded STEN value respects the order of `normalInverse`. -/
lemma stenOf_mono_of_le {p1 p2 : ℝ} (h : normalInverse p1 ≤ normalInverse p2) :
    stenOf p1 ≤ stenOf p2 := by
  unfold stenOf
  refine max_le_max le_rfl (min_le_min le_rfl (jsRound_mono ?_))
  unfold STEN_SD
  linarith

/-- In the lower tail region the STEN value is at most 2. -/
lemma stenOf_tail_le (p : ℝ) (h0 : 0 < p) (h1 : p < pLow) : stenOf p ≤ 2 := by
  have hz := normalInverse_tail_lt p h0 h1
  unfold stenOf jsRound
  have hj : ⌊STEN_MEAN + normalInverse p * STEN_SD + 1/2⌋ ≤ 2 := by
    have hlt : ⌊STEN_MEAN + normalInverse p * STEN_SD + 1/2⌋ < 3 := by
      apply Int.floor_lt.mpr
      push_cast
      unfold STEN_MEAN STEN_SD
      norm_num
      linarith
    omega
  exact max_le (by norm_num) (le_trans (min_le_right 10 _) hj)

/-- In the central region the STEN value lies in `[2, 9]`. -/
lemma stenOf_central_bounds (p : ℝ) (ha : ¬ p < pLow) (hb : p ≤ 1 - pLow) :
    2 ≤ stenOf p ∧ stenOf p ≤ 9 := by
  obtain ⟨hlo, hhi⟩ := normalInverse_central_bounds p ha hb
  unfold stenOf jsRound
  have h2j : (2:ℤ) ≤ ⌊STEN_MEAN + normalInverse p * STEN_SD + 1/2⌋ := by
    apply Int.le_floor.mpr
    push_cast
    unfold STEN_MEAN STEN_SD
    norm_num
    linarith
  have h9j : ⌊STEN_MEAN + normalInverse p * STEN_SD + 1/2⌋ ≤ 9 := by
    have hlt : ⌊STEN_MEAN + normalInverse p * STEN_SD + 1/2⌋ < 10 := by
      apply Int.floor_lt.mpr
      push_cast
      unfold STEN_MEAN STEN_SD
      norm_num
      linarith
    omega
  constructor
  · exact le_trans (le_min (by norm_num) h2j) (le_max_right 1 _)
  · exact max_le (by norm_num) (le_trans (min_le_right 10 _) h9j)

/-- In the upper tail region the STEN value is at least 9. -/
lemma stenOf_upper_ge (p : ℝ) (hb : ¬ p ≤ 1 - pLow) (h1 : p < 1) :
    9 ≤ stenOf p := by
  have hz := normalInverse_upper_gt p hb h1
  unfold stenOf jsRound
  have hj : (9:ℤ) ≤ ⌊STEN_MEAN + normalInverse p * STEN_SD + 1/2⌋ := by
    apply Int.le_floor.mpr
    push_cast
    unfold STEN_MEAN STEN_SD
    norm_num
    linarith
  exact le_trans (le_min (by norm_num) hj) (le_max_right 1 _)

/-- The clamped rounded STEN value is monotone in the proportion `p` on
`(0, 1)`. -/
lemma stenOf_mono (p1 p2 : ℝ) (h0 : 0 < p1) (h12 : p1 ≤ p2) (h1 : p2 < 1) :
    stenOf p1 ≤ stenOf p2 := by
  by_cases ha1 : p1 < pLow
  · by_cases ha2 : p2 < pLow
    · exact stenOf_mono_of_le (normalInverse_mono_tail p1 p2 h0 h12 ha2)
    · by_cases hb2 : p2 ≤ 1 - pLow
      · exact le_trans (stenOf_tail_le p1 h0 ha1) (stenOf_central_bounds p2 ha2 hb2).1
      · exact le_trans (stenOf_tail_le p1 h0 ha1)
          (le_trans (by norm_num) (stenOf_upper_ge p2 hb2 h1))
  · by_cases hb1 : p1 ≤ 1 - pLow
    · by_cases hb2 : p2 ≤ 1 - pLow
      · exact stenOf_mono_of_le (normalInverse_mono_central p1 p2 h12 ha1 hb2)
      · exact le_trans (stenOf_central_bounds p1 ha1 hb1).2 (stenOf_upper_ge p2 hb2 h1)
    · exact stenOf_mono_of_le (normalInverse_mono_upper p1 p2 h12 hb1 h1)

/-- **C7**: for `rawMin < rawMax`, `rawToSten` always returns an integer in
`[1, 10]`; it maps `rawMin` to 1 and `rawMax` to 10; and it is monotone
non-decreasing in the raw score. -/
theorem rawToSten_spec (rawMin rawMax : ℝ) (h : rawMin < rawMax) :
    (∀ raw, 1 ≤ rawToSten raw rawMin rawMax ∧ rawToSten raw rawMin rawMax ≤ 10) ∧
    rawToSten rawMin rawMin rawMax = 1 ∧
    rawToSten rawMax rawMin rawMax = 10 ∧
    (∀ raw1 raw2, raw1 ≤ raw2 →
      rawToSten raw1 rawMin rawMax ≤ rawToSten raw2 rawMin rawMax) := by
  have hrepr : ∀ raw, rawToSten raw rawMin rawMax =
      if raw ≤ rawMin then 1 else if rawMax ≤ raw then 10
      else stenOf ((raw - rawMin) / (rawMax - rawMin)) := fun _ => rfl
  refine ⟨?_, ?_, ?_, ?_⟩
  · intro raw
    rw [hrepr]
    split_ifs with h1 h2
    · exact ⟨le_rfl, by norm_num⟩
    · exact ⟨by norm_num, le_rfl⟩
    · exact stenOf_bounds _
  · rw [hrepr, if_pos le_rfl]
  · rw [hrepr, if_neg (not_le.mpr h), if_pos le_rfl]
  · intro r1 r2 h12
    rw [hrepr, hrepr]
    by_cases hA : r1 ≤ rawMin
    · rw [if_pos hA]
      split_ifs with u1 u2
      · exact le_rfl
      · norm_num
      · exact (stenOf_bounds _).1
    · rw [if_neg hA]
      push_neg at hA
      by_cases hB : rawMax ≤ r1
      · have hB2 : rawMax ≤ r2 := le_trans hB h12
        have hA2 : ¬ r2 ≤ rawMin := by push_neg; linarith
        rw [if_pos hB, if_neg hA2, if_pos hB2]
      · rw [if_neg hB]
        push_neg at hB
        have hA2 : ¬ r2 ≤ rawMin := by push_neg; linarith
        rw [if_neg hA2]
        by_cases hC : rawMax ≤ r2
        · rw [if_pos hC]
          exact (stenOf_bounds _).2
        · rw [if_neg hC]
          push_neg at hC
          have hden : 0 < rawMax - rawMin := by linarith
          apply stenOf_mono
          · exact div_pos (by linarith) hden
          · rw [div_le_div_iff hden hden]
            nlinarith [mul_le_mul_of_nonneg_right
              (show r1 - rawMin ≤ r2 - rawMin by linarith) hden.le]
          · rw [div_lt_one hden]
            linarith

/-- Witness for C7: the unit-interval instance with endpoints 0 and 1. -/
theorem rawToSten_spec_witness :
    rawToSten 0 0 1 = 1 ∧ rawToSten 1 0 1 = 10 :=
  ⟨(rawToSten_spec 0 1 (by norm_num)).2.1, (rawToSten_spec 0 1 (by norm_num)).2.2.1⟩

end Profiles
